import Mathlib

/-!
# cgates: the gate set and the propagation engine of src/main.c

A shallow embedding of src/main.c. Conventions of the embedding:

* C int values (PortId, GateId, block_len, block_cap, indices) are Int. The int
  arithmetic that can leave the range of int is that of the growth in
  circuit_port_new and circuit_gate_new (cap * 2 and len++): a result outside
  the range is a signed overflow, which is undefined behaviour (int_overflow).
  For a divisor 2^k the arithmetic shift x >> k is x / 2^k and the mask
  x & (2^k - 1) is x % 2^k (floor division and its remainder).
* u64 blocks and u8 port bytes are Nat cells of a List; the List is the
  allocated storage, so an index outside of it is an out-of-bounds access.
* A call either returns normally (Except.ok) or stops with a Fault: a failed
  assert, or behaviour the C standard leaves undefined (an out-of-bounds
  access, a shift of an int by a count outside 0..30, a bit scan of 0, a signed
  overflow). The circuit functions report a fault with the circuit state at the
  fault; endState is the state in which a call ends, returning or not.
* Two functions are also given in the reading of the machine, with what the
  machine does where C leaves the behaviour undefined as a parameter:
  gate_set_mark_with on shl1_machine (the value of a shift by a count of 31 or
  more) and circuit_update_gate_front (the bytes in front of the gate array).
  They are gate_set_mark for a shift count below 31 (gate_set_mark_machine_low)
  and circuit_update_gate for an index that is not negative
  (circuit_update_gate_front_nonneg).
* Storage obtained from realloc holds indeterminate values. They are supplied
  by the parameter fresh (block index to block value) for gate sets and by a
  Junk record for the arrays of a circuit; the uninitialised iterator variable
  it of circuit_port_notify is supplied by Env.it0. Allocation is taken to
  succeed.
* Blocks are laid out little-endian, as on x86-64 and AArch64: byte k of a
  block holds its bits 8k .. 8k+7.
-/

namespace CGates

/-- Ways in which a call fails to return normally. -/
inductive Fault where
  /-- An assert of the program fails and the process aborts. -/
  | assertion
  /-- Undefined behaviour of C is reached. -/
  | undefined
  /-- The iteration bound of the embedding is used up (no behaviour of the program). -/
  | exhausted
  deriving DecidableEq

/-- The expression 1 << n on a 32-bit int, defined for a shift count 0..30 only. -/
def shl1 (n : Int) : Except Fault Nat :=
  if 0 ≤ n ∧ n < 31 then .ok (2 ^ n.toNat) else .error .undefined

/-- The expression ~x for an int x >= 0, converted to u64: the negative int -(x+1)
is sign-extended, which gives 2^64 - 1 - x. -/
def notMask (x : Nat) : Nat := 2 ^ 64 - 1 - x

/-- The builtin __builtin_ctz applied to a u64: the argument is converted to
unsigned int (32 bits); the result is undefined for 0. -/
def ctz32 (x : Nat) : Except Fault Nat :=
  match (List.range 32).find? (fun i => x.testBit i) with
  | some i => .ok i
  | none => .error .undefined

/-- The builtin __builtin_clz applied to a u64: the argument is converted to
unsigned int (32 bits); the result is undefined for 0. -/
def clz32 (x : Nat) : Except Fault Nat :=
  if x % 2 ^ 32 = 0 then .error .undefined else .ok (31 - Nat.log2 (x % 2 ^ 32))

/-- Read of mem[i]; an index outside the storage is undefined behaviour. -/
def load {α : Type} (mem : List α) (i : Int) : Except Fault α :=
  if i < 0 then .error .undefined
  else
    match mem[i.toNat]? with
    | some a => .ok a
    | none => .error .undefined

/-- Write of mem[i]; an index outside the storage is undefined behaviour. -/
def store {α : Type} (mem : List α) (i : Int) (a : α) : Except Fault (List α) :=
  if 0 ≤ i ∧ i.toNat < mem.length then .ok (mem.set i.toNat a) else .error .undefined

/-- The call realloc(bits, n * sizeof(u64)): the old blocks are kept, every block
added holds the indeterminate value fresh i (a u64). -/
def realloc (fresh : Nat → Nat) (bits : List Nat) (n : Nat) : List Nat :=
  (List.range n).map fun i =>
    match bits[i]? with
    | some b => b
    | none => fresh i % 2 ^ 64

/-- The call memset(bits, 0, n): the first n BYTES of the block array are zeroed,
that is the blocks below n / 8 and the low n % 8 bytes of block n / 8. -/
def memset0 (bits : List Nat) (n : Nat) : List Nat :=
  List.zipWith
    (fun i b =>
      if 8 * (i + 1) ≤ n then 0
      else if 8 * i < n then b / 2 ^ (8 * (n - 8 * i)) * 2 ^ (8 * (n - 8 * i))
      else b)
    (List.range bits.length) bits

/-- The struct GateSet (lines 97-104). -/
structure GateSet where
  bits : List Nat
  block_len : Int
  block_cap : Int
  deriving DecidableEq

/-- The zeroed GateSet, as calloc or memset leave it: bits = NULL, block_len = block_cap = 0. -/
def GateSet.zeroed : GateSet := { bits := [], block_len := 0, block_cap := 0 }

/-- Membership as the representation stores it: id is marked when bit id & 63 of
block id >> 6 is set (the bit gate_set_mark is meant to write). -/
def GateSet.marked (set : GateSet) (id : Nat) : Bool :=
  (set.bits.getD (id / 64) 0).testBit (id % 64)

/-- The growth of the storage in gate_set_mark (lines 268-276). -/
def gate_set_grow (fresh : Nat → Nat) (set : GateSet) (block_idx : Int) : Except Fault GateSet :=
  if block_idx ≥ set.block_cap then
    let oldcap := set.block_cap
    let cap := if set.block_cap = 0 then 8 else set.block_cap * 2
    let cap := if cap ≤ block_idx then block_idx + 1 else cap
    -- realloc of a non-positive size, or a memset past the end of the new storage
    if cap ≤ 0 ∨ 8 * cap < cap - oldcap then .error .undefined
    else
      .ok { set with
              bits := memset0 (realloc fresh set.bits cap.toNat) (cap - oldcap).toNat
              block_cap := cap }
  else .ok set

/-- The function gate_set_mark (lines 266-280). -/
def gate_set_mark (fresh : Nat → Nat) (set : GateSet) (id : Int) : Except Fault GateSet := do
  let set ← gate_set_grow fresh set (id / 64)
  let m ← shl1 (id % 64)
  let b ← load set.bits (id / 64)
  let bits ← store set.bits (id / 64) (b ||| m)
  return { set with
             bits := bits
             block_len := if id / 64 ≥ set.block_len then id / 64 + 1 else set.block_len }

/-- The loop while (set->bits[set->block_len] == 0) set->block_len-- of
gate_set_unmark (lines 288-290), started at block_len = n >= 0. When block 0 is
zero the next read is bits[-1]. -/
def unmark_scan (bits : List Nat) : Nat → Except Fault Int
  | 0 => do
    let b ← load bits 0
    if b = 0 then .error .undefined else return 0
  | n + 1 => do
    let b ← load bits ((n : Int) + 1)
    if b = 0 then unmark_scan bits n else return (n : Int) + 1

/-- The function gate_set_unmark (lines 282-292). The mask is ~(1 << id & 0x3f),
which C parses as ~((1 << id) & 0x3f). -/
def gate_set_unmark (set : GateSet) (id : Int) : Except Fault GateSet :=
  if id / 64 ≥ set.block_len then .ok set
  else do
    let m ← shl1 id
    let b ← load set.bits (id / 64)
    let bits ← store set.bits (id / 64) (b &&& notMask (m &&& 0x3f))
    if set.block_len = id / 64 + 1 then do
      let len ← unmark_scan bits set.block_len.toNat
      return { set with bits := bits, block_len := len }
    else
      return { set with bits := bits }

/-- The function gate_set_empty (lines 294-296). -/
def gate_set_empty (set : GateSet) : Bool :=
  decide (set.block_len ≤ 0)

/-- The function gate_set_pop (lines 298-305): the id returned and the set left. -/
def gate_set_pop (set : GateSet) : Except Fault (Int × GateSet) :=
  if gate_set_empty set then .error .assertion
  else do
    let b ← load set.bits (set.block_len - 1)
    let idx ← ctz32 b
    let m ← shl1 idx
    let bits ← store set.bits (set.block_len - 1) (b &&& notMask m)
    return (set.block_len * 64 + (64 - (idx : Int) - 1), { set with bits := bits })

/-- The struct GateSetIter (lines 106-112); set is the set the iterator points to. -/
structure GateSetIter where
  curr : Int
  block_idx : Int
  block : Nat
  set : GateSet
  deriving DecidableEq

/-- The function gate_set_iter_init (lines 137-142). The field curr is not written. -/
def gate_set_iter_init (it : GateSetIter) (set : GateSet) : Except Fault GateSetIter :=
  let it := { it with set := set, block_idx := 0 }
  if it.block_idx < it.set.block_cap then do
    let b ← load it.set.bits 0
    return { it with block := b }
  else .ok it

/-- The loop while (it->block == 0) of gate_set_iter_step (lines 150-154). Every
round raises block_idx, so block_cap - block_idx rounds always reach the return. -/
def iter_skip : Nat → GateSetIter → Except Fault GateSetIter
  | 0, it => if it.block = 0 then .error .exhausted else .ok it
  | n + 1, it =>
    if it.block = 0 then
      let it := { it with block_idx := it.block_idx + 1 }
      if it.block_idx ≥ it.set.block_cap then .ok it
      else do
        let b ← load it.set.bits it.block_idx
        iter_skip n { it with block := b }
    else .ok it

/-- The function gate_set_iter_step (lines 144-155). -/
def gate_set_iter_step (it : GateSetIter) : Except Fault GateSetIter :=
  if it.block_idx ≥ it.set.block_cap then .ok it
  else do
    let idx ← clz32 it.block
    let m ← shl1 (64 - (idx : Int) - 1)
    iter_skip (it.set.block_cap - it.block_idx).toNat
      { it with curr := it.block_idx * 64 + (idx : Int), block := it.block &&& notMask m }

/-- The loop of the FOR_EACH_GATE statement (line 115) once the iterator is
initialised: while block_idx < block_cap, run the body on it.curr, then step. The
body works on a state s; a fault is reported with the state reached. The first
argument bounds the number of rounds. -/
def for_each_loop {σ : Type} (body : σ → Int → Except (Fault × σ) σ) :
    Nat → GateSetIter → σ → Except (Fault × σ) σ
  | 0, it, s => if it.block_idx < it.set.block_cap then .error (.exhausted, s) else .ok s
  | n + 1, it, s =>
    if it.block_idx < it.set.block_cap then
      match body s it.curr with
      | .error e => .error e
      | .ok s1 =>
        match gate_set_iter_step it with
        | .error f => .error (f, s1)
        | .ok it1 => for_each_loop body n it1 s1
    else .ok s

/-- The statement FOR_EACH_GATE(set, it) body (lines 114-115), for an iterator
variable whose contents before the statement are it0. -/
def FOR_EACH_GATE {σ : Type} (rounds : Nat) (it0 : GateSetIter) (set : GateSet)
    (body : σ → Int → Except (Fault × σ) σ) (s : σ) : Except (Fault × σ) σ :=
  match gate_set_iter_init it0 set with
  | .error f => .error (f, s)
  | .ok it => for_each_loop body rounds it s

/-- The enum GateKind (lines 31-41). -/
inductive GateKind where
  | In | Out | Wire | Not | And | Or | Nor
  deriving DecidableEq

/-- The enumerator that an int tag stands for, if any. -/
def GateKind.ofTag (tag : Int) : Option GateKind :=
  if tag = 0 then some .In
  else if tag = 1 then some .Out
  else if tag = 2 then some .Wire
  else if tag = 3 then some .Not
  else if tag = 4 then some .And
  else if tag = 5 then some .Or
  else if tag = 6 then some .Nor
  else none

/-- The tag of an enumerator. -/
def GateKind.tag : GateKind → Int
  | .In => 0 | .Out => 1 | .Wire => 2 | .Not => 3 | .And => 4 | .Or => 5 | .Nor => 6

/-- The struct Gate (lines 74-95). input is inputs0, output is the first output;
the payload of an In gate is value, that of an Out gate is cb and cb_data (the
union overlap of the two payloads is not modelled: a gate uses one of them). -/
structure Gate where
  kind : Int
  inputs0 : Int
  inputs1 : Int
  output : Int
  value : Int
  cb : Nat
  cb_data : Nat
  deriving DecidableEq

/-- One invocation g.cb(value, g.cb_data) of an output callback. -/
structure Call where
  cb : Nat
  cb_data : Nat
  value : Int
  deriving DecidableEq

/-- The struct Circuit (lines 117-135), without the unused inout_ids. The lists
subs, ports and gates are the allocated storage. The field calls is not part of
the C struct: it records the callback invocations made so far, oldest first. -/
structure Circuit where
  subs : List GateSet
  ports : List Nat
  len_ports : Int
  cap_ports : Int
  gates : List Gate
  len_gates : Int
  cap_gates : Int
  dirty : GateSet
  calls : List Call
  deriving DecidableEq

/-- The indeterminate values a run reads and the bound on FOR_EACH_GATE rounds. -/
structure Env where
  /-- Contents of the blocks that realloc adds to the dirty set. -/
  fresh : Nat → Nat
  /-- Contents of the uninitialised local GateSetIter it of circuit_port_notify. -/
  it0 : GateSetIter
  /-- Bound on the rounds of one FOR_EACH_GATE statement. -/
  rounds : Nat

/-- Results of the circuit functions: a fault is reported with the circuit state
at the fault. -/
abbrev Run (α : Type) := Except (Fault × Circuit) α

/-- The function circuit_gate_mark_dirty (lines 311-313). -/
def circuit_gate_mark_dirty (env : Env) (c : Circuit) (gate : Int) : Run Circuit :=
  match gate_set_mark env.fresh c.dirty gate with
  | .ok d => .ok { c with dirty := d }
  | .error f => .error (f, c)

/-- The function circuit_port_notify (lines 186-191). -/
def circuit_port_notify (env : Env) (c : Circuit) (id : Int) : Run Circuit :=
  match load c.subs id with
  | .error f => .error (f, c)
  | .ok set => FOR_EACH_GATE env.rounds env.it0 set (circuit_gate_mark_dirty env) c

/-- The function circuit_port_get (lines 193-198). -/
def circuit_port_get (c : Circuit) (id : Int) : Run Int :=
  if ¬ id < c.len_ports then .error (.assertion, c)
  else
    match load c.ports (id / 8) with
    | .error f => .error (f, c)
    | .ok b => .ok ((b / 2 ^ (id % 8).toNat % 2 : Nat) : Int)

/-- The function circuit_port_set (lines 200-207). The byte is a u8, so what is
stored is reduced modulo 256; value & 1 is value % 2. -/
def circuit_port_set (env : Env) (c : Circuit) (id : Int) (value : Int) : Run Circuit :=
  if ¬ id < c.len_ports then .error (.assertion, c)
  else
    let hi := id / 8
    let lo := id % 8
    match (do
      let m ← shl1 lo
      let b ← load c.ports hi
      let ports ← store c.ports hi ((b &&& notMask m) % 256)
      let b ← load ports hi
      store ports hi ((b ||| (value % 2).toNat * m) % 256)) with
    | .error f => .error (f, c)
    | .ok ports => circuit_port_notify env { c with ports := ports } id

/-- The function circuit_update_gate (lines 209-253). -/
def circuit_update_gate (env : Env) (c : Circuit) (gate : Int) : Run Circuit :=
  if ¬ gate < c.len_gates then .error (.assertion, c)
  else
    match load c.gates gate with
    | .error f => .error (f, c)
    | .ok g =>
      match GateKind.ofTag g.kind with
      | some .Out => do
        let value ← circuit_port_get c g.inputs0
        return { c with calls := c.calls ++ [{ cb := g.cb, cb_data := g.cb_data, value := value }] }
      | some .In => circuit_port_set env c g.output g.value
      | some .Wire => do
        let value ← circuit_port_get c g.inputs0
        circuit_port_set env c g.output value
      | some .Not => do
        let value ← circuit_port_get c g.inputs0
        circuit_port_set env c g.output (-value - 1)
      | some .And => do
        let left ← circuit_port_get c g.inputs0
        let right ← circuit_port_get c g.inputs1
        circuit_port_set env c g.output (if left ≠ 0 ∧ right ≠ 0 then 1 else 0)
      | some .Or => do
        let left ← circuit_port_get c g.inputs0
        let right ← circuit_port_get c g.inputs1
        circuit_port_set env c g.output (if left ≠ 0 ∨ right ≠ 0 then 1 else 0)
      | some .Nor => do
        let left ← circuit_port_get c g.inputs0
        let right ← circuit_port_get c g.inputs1
        circuit_port_set env c g.output (if left ≠ 0 ∨ right ≠ 0 then 0 else 1)
      | none => .error (.assertion, c)

/-- The function circuit_update (lines 315-320); the first argument bounds the
number of rounds of its while loop. -/
def circuit_update (env : Env) : Nat → Circuit → Run Circuit
  | 0, c => if gate_set_empty c.dirty then .ok c else .error (.exhausted, c)
  | n + 1, c =>
    if gate_set_empty c.dirty then .ok c
    else
      match gate_set_pop c.dirty with
      | .error f => .error (f, c)
      | .ok (id, d) =>
        match circuit_update_gate env { c with dirty := d } id with
        | .error e => .error e
        | .ok c1 => circuit_update env n c1

/-- The fault of a result, if it is one. -/
def faultOf {σ α : Type} : Except (Fault × σ) α → Option Fault
  | .ok _ => none
  | .error (f, _) => some f

/-- One call of the mutation interface of a gate set. -/
inductive SetOp where
  | mark (id : Nat)
  | unmark (id : Nat)
  deriving DecidableEq

/-- A sequence of gate_set_mark and gate_set_unmark calls, run from left to right. -/
def run_ops (fresh : Nat → Nat) : List SetOp → GateSet → Except Fault GateSet
  | [], set => .ok set
  | .mark id :: ops, set =>
    match gate_set_mark fresh set id with
    | .ok set1 => run_ops fresh ops set1
    | .error f => .error f
  | .unmark id :: ops, set =>
    match gate_set_unmark set id with
    | .ok set1 => run_ops fresh ops set1
    | .error f => .error f

/-- Specification side: the ids that are net-marked after a sequence of calls
(marked and not unmarked afterwards), in the order of their marking. -/
def net_marked (ops : List SetOp) : List Nat :=
  ops.foldl
    (fun acc op =>
      match op with
      | .mark id => if id ∈ acc then acc else acc ++ [id]
      | .unmark id => acc.filter (fun x => x ≠ id))
    []

/-- The ids the body of FOR_EACH_GATE(set, it) sees, in the order it sees them,
for an iterator variable holding it0 before the statement. -/
def iter_ids (rounds : Nat) (it0 : GateSetIter) (set : GateSet) :
    Except (Fault × List Int) (List Int) :=
  FOR_EACH_GATE rounds it0 set (fun seen id => .ok (seen ++ [id])) []

/-- The loop while (!gate_set_empty(set)) gate_set_pop(set), the loop of
circuit_update (lines 316-319) without the gate evaluation: the ids popped so
far are collected; the first argument bounds the number of rounds. -/
def pop_until_empty : Nat → GateSet → List Int → Except (Fault × List Int) (List Int × GateSet)
  | 0, set, popped =>
    if gate_set_empty set then .ok (popped, set) else .error (.exhausted, popped)
  | n + 1, set, popped =>
    if gate_set_empty set then .ok (popped, set)
    else
      match gate_set_pop set with
      | .error f => .error (f, popped)
      | .ok (id, set1) => pop_until_empty n set1 (popped ++ [id])

/-- A gate record with every field zero. -/
def Gate.zero : Gate :=
  { kind := 0, inputs0 := 0, inputs1 := 0, output := 0, value := 0, cb := 0, cb_data := 0 }

/-- A circuit with one port and one In gate that drives it with the literal 0;
no gate is subscribed to anything and no gate is dirty. -/
def single_input : Circuit :=
  { subs := [GateSet.zeroed]
    ports := [0], len_ports := 1, cap_ports := 8
    gates := [{ Gate.zero with kind := GateKind.In.tag, output := 0, value := 0 }]
    len_gates := 1, cap_gates := 8
    dirty := GateSet.zeroed
    calls := [] }

/-- The chain In(p0) -> Not -> Wire -> Out(p2) over the ports p0, p1, p2 = 0, 1, 2:
gate 0 is In (output p0, literal 1), gate 1 is Not (input p0, output p1), gate 2
is Wire (input p1, output p2), gate 3 is Out (input p2, callback 1). The
subscriber sets are the parameter subs; no gate is dirty. -/
def chain (subs : List GateSet) : Circuit :=
  { subs := subs
    ports := [0], len_ports := 3, cap_ports := 8
    gates :=
      [ { Gate.zero with kind := GateKind.In.tag, output := 0, value := 1 },
        { Gate.zero with kind := GateKind.Not.tag, inputs0 := 0, output := 1 },
        { Gate.zero with kind := GateKind.Wire.tag, inputs0 := 1, output := 2 },
        { Gate.zero with kind := GateKind.Out.tag, inputs0 := 2, cb := 1 },
        Gate.zero, Gate.zero, Gate.zero, Gate.zero ]
    len_gates := 4, cap_gates := 8
    dirty := GateSet.zeroed
    calls := [] }

/-- The set that gate_set_mark(set, g) leaves from a zeroed set when the storage
it gets reads zero: the subscriber set of a port with the one subscriber g < 31. -/
def GateSet.single (g : Nat) : GateSet :=
  { bits := [2 ^ g, 0, 0, 0, 0, 0, 0, 0], block_len := 1, block_cap := 8 }

/-- Two ports p0, p1 and a Wire gate 0 from p1 to p0; gate 1 is an Out gate that
reads p0 and is subscribed to it. Port p1 holds the bit a, port p0 holds 0. The
array subs has cap_ports >> 3 = 1 entry, as circuit_port_new allocates it. -/
def wire_watched (a : Nat) : Circuit :=
  { subs := [GateSet.single 1]
    ports := [2 * (a % 2)], len_ports := 2, cap_ports := 8
    gates :=
      [ { Gate.zero with kind := GateKind.Wire.tag, inputs0 := 1, output := 0 },
        { Gate.zero with kind := GateKind.Out.tag, inputs0 := 0, cb := 1 } ]
    len_gates := 2, cap_gates := 8
    dirty := GateSet.zeroed
    calls := [] }

/-- Two ports p0, p1; the only subscriber of p0 is gate 2, a Not gate from p0 to
p1. All ports hold 0 and no gate is dirty. The array subs has one entry. -/
def one_subscriber : Circuit :=
  { subs := [GateSet.single 2]
    ports := [0], len_ports := 2, cap_ports := 8
    gates :=
      [ Gate.zero, Gate.zero,
        { Gate.zero with kind := GateKind.Not.tag, inputs0 := 0, output := 1 } ]
    len_gates := 3, cap_gates := 8
    dirty := GateSet.zeroed
    calls := [] }

/-- Three ports p0, p1, p2 and a Nor gate 0 from p1, p2 to p0; no gate is
subscribed to p0. Ports p1 and p2 hold the bits a and b, p0 holds 0. -/
def nor_unwatched (a b : Bool) : Circuit :=
  { subs := [GateSet.zeroed]
    ports := [2 * a.toNat + 4 * b.toNat], len_ports := 3, cap_ports := 8
    gates := [{ Gate.zero with kind := GateKind.Nor.tag, inputs0 := 1, inputs1 := 2, output := 0 }]
    len_gates := 1, cap_gates := 8
    dirty := GateSet.zeroed
    calls := [] }

/-- An uninitialised iterator variable whose field curr happens to hold id. -/
def stale_iter (id : Int) : GateSetIter :=
  { curr := id, block_idx := 0, block := 0, set := GateSet.zeroed }

/-- Specification side: the truth tables of the gate kinds on the bit domain
{0, 1}: Wire(a) = a, Not(a) = 1 - a, And, Or and Nor(a, b) = not (a or b). The
kinds In and Out have no table; their rows are not used. -/
def gate_table : GateKind → Int → Int → Int
  | .Wire, a, _ => a
  | .Not, a, _ => 1 - a
  | .And, a, b => if a = 1 ∧ b = 1 then 1 else 0
  | .Or, a, b => if a = 1 ∨ b = 1 then 1 else 0
  | .Nor, a, b => if a = 1 ∨ b = 1 then 0 else 1
  | .In, a, _ => a
  | .Out, a, _ => a

/-- The function circuit_new (lines 159-162): calloc leaves every field zero. -/
def circuit_new : Circuit :=
  { subs := [], ports := [], len_ports := 0, cap_ports := 0
    gates := [], len_gates := 0, cap_gates := 0
    dirty := GateSet.zeroed, calls := [] }

/-- The indeterminate contents of the storage that the allocation functions of a
circuit obtain: port bytes, subscriber set records and gate records, by index. -/
structure Junk where
  ports : Nat → Nat
  subs : Nat → GateSet
  gates : Nat → Gate

/-- The call realloc(mem, n * sizeof(element)) for an array of records: the old
elements are kept, every element added holds the indeterminate value fresh i. -/
def realloc_array {α : Type} (fresh : Nat → α) (mem : List α) (n : Nat) : List α :=
  (List.range n).map fun i =>
    match mem[i]? with
    | some a => a
    | none => fresh i

/-- The call memset(ports + start, 0, ...) up to the end of the byte array. -/
def zero_from (ports : List Nat) (start : Nat) : List Nat :=
  List.zipWith (fun i b => if start ≤ i then 0 else b) (List.range ports.length) ports

/-- The call memset(subs + start, 0, n) on the array of GateSet records, which are
16 bytes each: n BYTES are zeroed from record start on. A record that lies
wholly in these bytes is zeroed; a record of which only some bytes are zeroed
stays indeterminate, like the records after it. -/
def memset_subs (subs : List GateSet) (start n : Nat) : List GateSet :=
  List.zipWith
    (fun i s => if start ≤ i ∧ 16 * (i - start + 1) ≤ n then GateSet.zeroed else s)
    (List.range subs.length) subs

/-- Whether a value lies outside the range of the 32-bit C type int. Arithmetic on
int whose result does so is a signed overflow, which is undefined behaviour. -/
def int_overflow (x : Int) : Bool := decide (x < -2147483648 ∨ 2147483647 < x)

/-- The function circuit_port_new (lines 172-184): the index returned and the
circuit left. x8_cap and x8_len are the byte counts cap_ports >> 3 and
len_ports >> 3; both arrays are reallocated to x8_cap elements. The products and
sums on int that can leave its range are cap_ports * 2 (line 174, evaluated when
the storage grows) and len_ports++ (line 183). -/
def circuit_port_new (junk : Junk) (c : Circuit) : Run (Int × Circuit) :=
  -- signed overflow of cap_ports * 2 or of len_ports++
  if (c.len_ports ≥ c.cap_ports ∧ int_overflow (c.cap_ports * 2) = true) ∨
      int_overflow (c.len_ports + 1) = true then .error (.undefined, c)
  else if c.len_ports ≥ c.cap_ports then
    let cap := if c.cap_ports = 0 then 8 else c.cap_ports * 2
    let x8_cap := cap / 8
    let x8_len := c.len_ports / 8
    -- realloc to a non-positive size, or a memset that does not lie in the new storage
    if x8_cap ≤ 0 ∨ x8_len < 0 ∨ x8_cap < x8_len then .error (.undefined, c)
    else
      .ok (c.len_ports,
        { c with
            cap_ports := cap
            ports :=
              zero_from (realloc_array (fun i => junk.ports i % 256) c.ports x8_cap.toNat)
                x8_len.toNat
            subs :=
              memset_subs (realloc_array junk.subs c.subs x8_cap.toNat) x8_len.toNat
                (x8_cap - x8_len).toNat
            len_ports := c.len_ports + 1 })
  else .ok (c.len_ports, { c with len_ports := c.len_ports + 1 })

/-- The function circuit_gate_new (lines 255-264): the id returned and the circuit
left. Only the field kind of the new record is written. The products and sums on
int that can leave its range are cap_gates * 2 (line 257, evaluated when the
storage grows) and len_gates++ (line 260). -/
def circuit_gate_new (junk : Junk) (c : Circuit) (kind : GateKind) : Run (Int × Circuit) :=
  let cap :=
    if c.len_gates ≥ c.cap_gates then (if c.cap_gates = 0 then 8 else c.cap_gates * 2)
    else c.cap_gates
  -- signed overflow of cap_gates * 2 or of len_gates++
  if (c.len_gates ≥ c.cap_gates ∧ int_overflow (c.cap_gates * 2) = true) ∨
      int_overflow (c.len_gates + 1) = true then .error (.undefined, c)
  -- realloc to a non-positive size; without growth, cap <= 0 means len_gates < 0,
  -- an access in front of the array
  else if cap ≤ 0 then .error (.undefined, c)
  else
    let gates :=
      if c.len_gates ≥ c.cap_gates then realloc_array junk.gates c.gates cap.toNat
      else c.gates
    match (do
      let g ← load gates c.len_gates
      store gates c.len_gates { g with kind := kind.tag }) with
    | .error f => .error (f, c)
    | .ok gates1 =>
      .ok (c.len_gates,
        { c with cap_gates := cap, gates := gates1, len_gates := c.len_gates + 1 })

/-- The function circuit_gate_subscribe (lines 307-309); fresh is the indeterminate
contents of the blocks that the set of the port may obtain. -/
def circuit_gate_subscribe (fresh : Nat → Nat) (c : Circuit) (gate port : Int) : Run Circuit :=
  match (do
    let set ← load c.subs port
    let set1 ← gate_set_mark fresh set gate
    store c.subs port set1) with
  | .error f => .error (f, c)
  | .ok subs => .ok { c with subs := subs }

/-- An assignment to the fields of the record of gate i, as in
c->gates[i].output = p (main, lines 337-371): the record becomes g. -/
def gate_assign (c : Circuit) (i : Int) (g : Gate) : Run Circuit :=
  match store c.gates i g with
  | .error f => .error (f, c)
  | .ok gates => .ok { c with gates := gates }

/-- The circuits reached from circuit_new by calls of the interface that return,
whatever the indeterminate values are. -/
inductive Reachable : Circuit → Prop
  | new : Reachable circuit_new
  | port_new (junk : Junk) (c c1 : Circuit) (id : Int) :
      Reachable c → circuit_port_new junk c = .ok (id, c1) → Reachable c1
  | gate_new (junk : Junk) (c c1 : Circuit) (kind : GateKind) (id : Int) :
      Reachable c → circuit_gate_new junk c kind = .ok (id, c1) → Reachable c1
  | assign (c c1 : Circuit) (i : Int) (g : Gate) :
      Reachable c → gate_assign c i g = .ok c1 → Reachable c1
  | subscribe (fresh : Nat → Nat) (c c1 : Circuit) (gate port : Int) :
      Reachable c → circuit_gate_subscribe fresh c gate port = .ok c1 → Reachable c1
  | mark_dirty (env : Env) (c c1 : Circuit) (gate : Int) :
      Reachable c → circuit_gate_mark_dirty env c gate = .ok c1 → Reachable c1
  | port_set (env : Env) (c c1 : Circuit) (id value : Int) :
      Reachable c → circuit_port_set env c id value = .ok c1 → Reachable c1
  | update_gate (env : Env) (c c1 : Circuit) (gate : Int) :
      Reachable c → circuit_update_gate env c gate = .ok c1 → Reachable c1
  | update (env : Env) (n : Nat) (c c1 : Circuit) :
      Reachable c → circuit_update env n c = .ok c1 → Reachable c1

/-- Representation invariant of the port array: the ports allocated fit the
capacity, the byte array holds cap_ports bits, and the bit of every port that is
not allocated is 0. -/
def Circuit.ports_ok (c : Circuit) : Prop :=
  0 ≤ c.len_ports ∧ c.len_ports ≤ c.cap_ports ∧ c.cap_ports = 8 * (c.ports.length : Int) ∧
    ∀ i : Nat, c.len_ports ≤ (i : Int) → c.ports.getD (i / 8) 0 / 2 ^ (i % 8) % 2 = 0

/-- Representation invariant of the gate array: the gates allocated fit the
capacity, which is the number of records of the storage. -/
def Circuit.gates_ok (c : Circuit) : Prop :=
  0 ≤ c.len_gates ∧ c.len_gates ≤ c.cap_gates ∧ c.cap_gates = (c.gates.length : Int)

/-- One call of the mutation interface of a gate set, gate_set_pop included. -/
inductive MutOp where
  | mark (id : Nat)
  | unmark (id : Nat)
  | pop
  deriving DecidableEq

/-- A sequence of gate_set_mark, gate_set_unmark and gate_set_pop calls, run from
left to right; the ids popped are dropped. -/
def run_muts (fresh : Nat → Nat) : List MutOp → GateSet → Except Fault GateSet
  | [], set => .ok set
  | .mark id :: ops, set =>
    match gate_set_mark fresh set id with
    | .ok set1 => run_muts fresh ops set1
    | .error f => .error f
  | .unmark id :: ops, set =>
    match gate_set_unmark set id with
    | .ok set1 => run_muts fresh ops set1
    | .error f => .error f
  | .pop :: ops, set =>
    match gate_set_pop set with
    | .ok (_, set1) => run_muts fresh ops set1
    | .error f => .error f

/-- The invariant that the comment of struct GateSet states (lines 99-101), with
the bounds on block_len: 0 <= block_len <= block_cap, bits[block_len-1] != 0
when block_len > 0, and bits[block_len .. block_cap-1] all zero. -/
def GateSet.inv (set : GateSet) : Bool :=
  decide (0 ≤ set.block_len) && decide (set.block_len ≤ set.block_cap) &&
    (decide (set.block_len ≤ 0) || set.bits.getD (set.block_len.toNat - 1) 0 != 0) &&
    (List.range set.block_cap.toNat).all
      (fun i => decide ((i : Int) < set.block_len) || set.bits.getD i 0 == 0)

/-- The circuit that main builds (lines 328-366), with ports p1..p5 = 0..4 and
gates in1, in2, r, s, a, b = 0..5, before the two In gates are marked dirty. The
assignments of lines 362-366 go to gate a again, so gate b keeps the
indeterminate fields of its record (here zero). The subscriber sets are the
parameter subs. -/
def main_circuit (subs : List GateSet) : Circuit :=
  { subs := subs
    ports := [0], len_ports := 5, cap_ports := 8
    gates :=
      [ { Gate.zero with kind := GateKind.In.tag, output := 0, value := 0 },
        { Gate.zero with kind := GateKind.In.tag, output := 1, value := 0 },
        { Gate.zero with kind := GateKind.Out.tag, inputs0 := 2, cb := 1, cb_data := 1 },
        { Gate.zero with kind := GateKind.Out.tag, inputs0 := 3, cb := 1, cb_data := 2 },
        { Gate.zero with kind := GateKind.Nor.tag, inputs0 := 2, inputs1 := 1, output := 3 },
        { Gate.zero with kind := GateKind.Nor.tag },
        Gate.zero, Gate.zero ]
    len_gates := 6, cap_gates := 8
    dirty := GateSet.zeroed
    calls := [] }

/-- Storage that reads zero everywhere: zero port bytes, zeroed subscriber
records, zero gate records. -/
def Junk.zero : Junk :=
  { ports := fun _ => 0, subs := fun _ => GateSet.zeroed, gates := fun _ => Gate.zero }

/-- The circuit that calls of circuit_port_new alone leave on storage that reads
zero: m port bytes that are 0 and m zeroed subscriber records, capacity 8 * m, and
n ports allocated. -/
def zero_ports (m : Nat) (n : Int) : Circuit :=
  { circuit_new with
      cap_ports := 8 * (m : Int), ports := List.replicate m 0,
      subs := List.replicate m GateSet.zeroed, len_ports := n }

/-- The circuit that calls of circuit_gate_new(c, GateKind_In) alone leave on
storage that reads zero: m gate records that are zero (the tag of GateKind_In is
0), capacity m, and n gates allocated. -/
def zero_gates (m : Nat) (n : Int) : Circuit :=
  { circuit_new with
      cap_gates := (m : Int), gates := List.replicate m Gate.zero, len_gates := n }

/-- The circuit wire_watched with six more ports allocated, so that its port byte
is full, and the ports holding the bits 1, 0, 1, 0, 0, 1, 0, 1 (the byte 165). -/
def ports_full : Circuit :=
  { wire_watched 1 with ports := [165], len_ports := 8 }

/-- The circuit of main after two more calls of circuit_gate_new(c, GateKind_In),
on storage that reads zero: its 8 gate records are all allocated. -/
def main_full (subs : List GateSet) : Circuit :=
  { main_circuit subs with len_gates := 8 }

/-- The circuit nor_unwatched false false after circuit_update_gate(c, 0): the Nor
gate has been evaluated and p0 holds Nor(0, 0) = 1. No gate is dirty. -/
def nor_settled : Circuit :=
  { nor_unwatched false false with ports := [1] }

/-- The function gate_set_mark (lines 266-280) with the value of the expression
1 << (id & 0x3f) of line 277, converted to u64, supplied by shl. With shl1 for shl
it is gate_set_mark. -/
def gate_set_mark_with (shl : Int → Except Fault Nat) (fresh : Nat → Nat) (set : GateSet)
    (id : Int) : Except Fault GateSet := do
  let set ← gate_set_grow fresh set (id / 64)
  let m ← shl (id % 64)
  let b ← load set.bits (id / 64)
  let bits ← store set.bits (id / 64) (b ||| m)
  return { set with
             bits := bits
             block_len := if id / 64 ≥ set.block_len then id / 64 + 1 else set.block_len }

/-- The expression 1 << n, converted to u64, on a machine whose shift instruction
delivers a value for every count: 2^n for the counts 0..30, for which C defines
it, and the u64 value wide n for the other counts (on x86-64 the shift takes the
count modulo 32 and the int result is sign-extended). -/
def shl1_machine (wide : Int → Nat) (n : Int) : Except Fault Nat :=
  if 0 ≤ n ∧ n < 31 then .ok (2 ^ n.toNat) else .ok (wide n % 2 ^ 64)

/-- The switch of circuit_update_gate (lines 213-252) on the record g that line 212
copied. -/
def gate_switch (env : Env) (c : Circuit) (g : Gate) : Run Circuit :=
  match GateKind.ofTag g.kind with
  | some .Out => do
    let value ← circuit_port_get c g.inputs0
    return { c with calls := c.calls ++ [{ cb := g.cb, cb_data := g.cb_data, value := value }] }
  | some .In => circuit_port_set env c g.output g.value
  | some .Wire => do
    let value ← circuit_port_get c g.inputs0
    circuit_port_set env c g.output value
  | some .Not => do
    let value ← circuit_port_get c g.inputs0
    circuit_port_set env c g.output (-value - 1)
  | some .And => do
    let left ← circuit_port_get c g.inputs0
    let right ← circuit_port_get c g.inputs1
    circuit_port_set env c g.output (if left ≠ 0 ∧ right ≠ 0 then 1 else 0)
  | some .Or => do
    let left ← circuit_port_get c g.inputs0
    let right ← circuit_port_get c g.inputs1
    circuit_port_set env c g.output (if left ≠ 0 ∨ right ≠ 0 then 1 else 0)
  | some .Nor => do
    let left ← circuit_port_get c g.inputs0
    let right ← circuit_port_get c g.inputs1
    circuit_port_set env c g.output (if left ≠ 0 ∨ right ≠ 0 then 0 else 1)
  | none => .error (.assertion, c)

/-- The function circuit_update_gate (lines 209-253) on a machine that carries out
the read gates[gate] of line 212 for a negative index: the bytes in front of the
gate array, read as the record gates[-k], are front k. For an index that is not
negative it is circuit_update_gate. -/
def circuit_update_gate_front (front : Nat → Gate) (env : Env) (c : Circuit) (gate : Int) :
    Run Circuit :=
  if ¬ gate < c.len_gates then .error (.assertion, c)
  else if gate < 0 then gate_switch env c (front (-gate).toNat)
  else
    match load c.gates gate with
    | .error f => .error (f, c)
    | .ok g => gate_switch env c g

/-- A circuit with one port and one In gate that drives it with the literal 1, after
the gate has been evaluated: the port holds 1. Nothing is subscribed to the port
and no gate has ever been marked dirty. -/
def driven_port : Circuit :=
  { subs := [GateSet.zeroed]
    ports := [1], len_ports := 1, cap_ports := 8
    gates :=
      [ { Gate.zero with kind := GateKind.In.tag, output := 0, value := 1 },
        Gate.zero, Gate.zero, Gate.zero, Gate.zero, Gate.zero, Gate.zero, Gate.zero ]
    len_gates := 1, cap_gates := 8
    dirty := GateSet.zeroed
    calls := [] }

/-! ## Faults of the primitive operations -/

/-- A shift count of 31 or more on an int is undefined behaviour. -/
theorem shl1_high (n : Int) (h : 31 ≤ n) : shl1 n = .error .undefined := by
  unfold shl1
  rw [if_neg]
  omega

/-- The builtin __builtin_clz counts over 32 bits: its result is at most 31. -/
theorem clz32_le (x idx : Nat) (h : clz32 x = .ok idx) : idx ≤ 31 := by
  unfold clz32 at h
  split at h
  · cases h
  · cases h
    omega

/-- Sequencing two computations that only fault with undefined behaviour. -/
theorem bind_fault {α β : Type} (r : Except Fault α) (k : α → Except Fault β)
    (hr : ∀ f, r = .error f → f = .undefined)
    (hk : ∀ a f, k a = .error f → f = .undefined) :
    ∀ f, (r >>= k) = .error f → f = .undefined := by
  intro f h
  cases r with
  | error e => cases h; exact hr _ rfl
  | ok a => exact hk a f h

/-- The only fault of 1 << n is undefined behaviour. -/
theorem shl1_fault (n : Int) : ∀ f, shl1 n = .error f → f = .undefined := by
  intro f h
  unfold shl1 at h
  split at h <;> cases h
  rfl

/-- The only fault of __builtin_clz is undefined behaviour. -/
theorem clz32_fault (x : Nat) : ∀ f, clz32 x = .error f → f = .undefined := by
  intro f h
  unfold clz32 at h
  split at h <;> cases h
  rfl

/-- The only fault of a read is undefined behaviour. -/
theorem load_fault {α : Type} (mem : List α) (i : Int) :
    ∀ f, load mem i = .error f → f = .undefined := by
  intro f h
  unfold load at h
  split at h
  · cases h; rfl
  · split at h <;> cases h
    rfl

/-- The only fault of a write is undefined behaviour. -/
theorem store_fault {α : Type} (mem : List α) (i : Int) (a : α) :
    ∀ f, store mem i a = .error f → f = .undefined := by
  intro f h
  unfold store at h
  split at h <;> cases h
  rfl

/-- Every gate_set_iter_step on an iterator that is not at its end is undefined
behaviour: either __builtin_clz scans 0, or the shift count 64 - idx - 1 is at least 32. -/
theorem gate_set_iter_step_undefined (it : GateSetIter) (h : it.block_idx < it.set.block_cap) :
    gate_set_iter_step it = .error .undefined := by
  unfold gate_set_iter_step
  have hn : ¬ it.block_idx ≥ it.set.block_cap := by omega
  rw [if_neg hn]
  cases hc : clz32 it.block with
  | error f =>
    rw [clz32_fault _ _ hc]
    rfl
  | ok idx =>
    have := clz32_le _ _ hc
    have hs := shl1_high (64 - (idx : Int) - 1) (by omega)
    simp only [bind, Except.bind, hs]

/-- The only fault of the growth in gate_set_mark is undefined behaviour. -/
theorem gate_set_grow_fault (fresh : Nat → Nat) (set : GateSet) (i : Int) :
    ∀ f, gate_set_grow fresh set i = .error f → f = .undefined := by
  intro f h
  unfold gate_set_grow at h
  simp only [] at h
  split_ifs at h <;> cases h <;> rfl

/-- The only fault of gate_set_mark is undefined behaviour (it has no assert). -/
theorem gate_set_mark_fault (fresh : Nat → Nat) (set : GateSet) (id : Int) :
    ∀ f, gate_set_mark fresh set id = .error f → f = .undefined := by
  unfold gate_set_mark
  apply bind_fault _ _ (gate_set_grow_fault _ _ _)
  intro s1
  apply bind_fault _ _ (shl1_fault _)
  intro m
  apply bind_fault _ _ (load_fault _ _)
  intro b
  apply bind_fault _ _ (store_fault _ _ _)
  intro bits f h
  cases h

/-- A read that succeeds had a non-negative index. -/
theorem load_ok_nonneg {α : Type} (mem : List α) (i : Int) (a : α) (h : load mem i = .ok a) :
    0 ≤ i := by
  unfold load at h
  split at h
  · cases h
  · omega

/-- The growth in gate_set_mark does not touch block_len. -/
theorem gate_set_grow_block_len (fresh : Nat → Nat) (set s1 : GateSet) (i : Int)
    (h : gate_set_grow fresh set i = .ok s1) : s1.block_len = set.block_len := by
  unfold gate_set_grow at h
  simp only [] at h
  split_ifs at h <;> cases h <;> rfl

/-- A returning gate_set_mark never lowers block_len and leaves it positive. -/
theorem gate_set_mark_block_len (fresh : Nat → Nat) (set s1 : GateSet) (id : Int)
    (h : gate_set_mark fresh set id = .ok s1) :
    set.block_len ≤ s1.block_len ∧ 0 < s1.block_len := by
  unfold gate_set_mark at h
  cases hg : gate_set_grow fresh set (id / 64) with
  | error f => rw [hg] at h; cases h
  | ok s0 =>
    have hl := gate_set_grow_block_len _ _ _ _ hg
    cases hm : shl1 (id % 64) with
    | error f => rw [hg, hm] at h; cases h
    | ok m =>
      cases hb : load s0.bits (id / 64) with
      | error f => simp only [hg, hm, hb, bind, Except.bind] at h; cases h
      | ok b =>
        have hi := load_ok_nonneg _ _ _ hb
        cases hs : store s0.bits (id / 64) (b ||| m) with
        | error f => simp only [hg, hm, hb, hs, bind, Except.bind] at h; cases h
        | ok bits =>
          simp only [hg, hm, hb, hs, bind, Except.bind, pure, Except.pure] at h
          cases h
          simp only []
          split_ifs <;> omega

/-- A returning gate_set_pop leaves block_len as it was. -/
theorem gate_set_pop_block_len (set s1 : GateSet) (id : Int)
    (h : gate_set_pop set = .ok (id, s1)) : s1.block_len = set.block_len := by
  unfold gate_set_pop at h
  split at h
  · cases h
  · cases hb : load set.bits (set.block_len - 1) with
    | error f => rw [hb] at h; cases h
    | ok b =>
      cases hc : ctz32 b with
      | error f => simp only [hb, hc, bind, Except.bind] at h; cases h
      | ok idx =>
        cases hm : shl1 idx with
        | error f => simp only [hb, hc, hm, bind, Except.bind] at h; cases h
        | ok m =>
          cases hs : store set.bits (set.block_len - 1) (b &&& notMask m) with
          | error f => simp only [hb, hc, hm, hs, bind, Except.bind] at h; cases h
          | ok bits =>
            simp only [hb, hc, hm, hs, bind, Except.bind, pure, Except.pure] at h
            cases h
            rfl

/-- A property of the state that every round of the body keeps holds after the loop. -/
theorem for_each_loop_inv {σ : Type} (P : σ → Prop) (body : σ → Int → Except (Fault × σ) σ)
    (hbody : ∀ s id s1, P s → body s id = .ok s1 → P s1) :
    ∀ (n : Nat) (it : GateSetIter) (s s1 : σ),
      P s → for_each_loop body n it s = .ok s1 → P s1 := by
  intro n
  induction n with
  | zero =>
    intro it s s1 hP h
    unfold for_each_loop at h
    split at h
    · cases h
    · cases h; exact hP
  | succ n ih =>
    intro it s s1 hP h
    unfold for_each_loop at h
    split at h
    · cases hb : body s it.curr with
      | error e => rw [hb] at h; cases h
      | ok s2 =>
        rw [hb] at h
        cases hs : gate_set_iter_step it with
        | error f => rw [hs] at h; cases h
        | ok it1 =>
          rw [hs] at h
          exact ih it1 s2 s1 (hbody _ _ _ hP hb) h
    · cases h; exact hP

/-- A returning notification never lowers block_len of the dirty set. -/
theorem circuit_port_notify_dirty (env : Env) (c c1 : Circuit) (id : Int)
    (h : circuit_port_notify env c id = .ok c1) :
    c.dirty.block_len ≤ c1.dirty.block_len := by
  unfold circuit_port_notify at h
  split at h
  · cases h
  · rename_i set _
    unfold FOR_EACH_GATE at h
    split at h
    · cases h
    · rename_i it _
      refine for_each_loop_inv (fun x => c.dirty.block_len ≤ x.dirty.block_len)
        (circuit_gate_mark_dirty env) ?_ env.rounds it c c1 (le_refl _) h
      intro s id s1 hs hm
      unfold circuit_gate_mark_dirty at hm
      split at hm
      · rename_i d hd
        cases hm
        have := (gate_set_mark_block_len _ _ _ _ hd).1
        simp only []
        omega
      · cases hm

/-- A returning circuit_port_set never lowers block_len of the dirty set. -/
theorem circuit_port_set_dirty (env : Env) (c c1 : Circuit) (id value : Int)
    (h : circuit_port_set env c id value = .ok c1) :
    c.dirty.block_len ≤ c1.dirty.block_len := by
  unfold circuit_port_set at h
  split at h
  · cases h
  · simp only [] at h
    split at h
    · cases h
    · have := circuit_port_notify_dirty _ _ _ _ h
      exact this

/-- A sequence of two circuit calls that returns: both calls returned. -/
theorem bind_run_ok {α β : Type} (r : Run α) (k : α → Run β) (b : β)
    (h : (r >>= k) = .ok b) : ∃ a, r = .ok a ∧ k a = .ok b := by
  cases r with
  | error e => cases h
  | ok a => exact ⟨a, rfl, h⟩

/-- A returning circuit_update_gate never lowers block_len of the dirty set. -/
theorem circuit_update_gate_dirty (env : Env) (c c1 : Circuit) (gate : Int)
    (h : circuit_update_gate env c gate = .ok c1) :
    c.dirty.block_len ≤ c1.dirty.block_len := by
  unfold circuit_update_gate at h
  split at h
  · cases h
  · split at h
    · cases h
    · split at h
      · obtain ⟨v, _, h2⟩ := bind_run_ok _ _ _ h
        cases h2
        exact le_refl _
      · exact circuit_port_set_dirty _ _ _ _ _ h
      · obtain ⟨v, _, h2⟩ := bind_run_ok _ _ _ h
        exact circuit_port_set_dirty _ _ _ _ _ h2
      · obtain ⟨v, _, h2⟩ := bind_run_ok _ _ _ h
        exact circuit_port_set_dirty _ _ _ _ _ h2
      · obtain ⟨v, _, h2⟩ := bind_run_ok _ _ _ h
        obtain ⟨w, _, h3⟩ := bind_run_ok _ _ _ h2
        exact circuit_port_set_dirty _ _ _ _ _ h3
      · obtain ⟨v, _, h2⟩ := bind_run_ok _ _ _ h
        obtain ⟨w, _, h3⟩ := bind_run_ok _ _ _ h2
        exact circuit_port_set_dirty _ _ _ _ _ h3
      · obtain ⟨v, _, h2⟩ := bind_run_ok _ _ _ h
        obtain ⟨w, _, h3⟩ := bind_run_ok _ _ _ h2
        exact circuit_port_set_dirty _ _ _ _ _ h3
      · cases h

/-- Once a gate is dirty, circuit_update cannot return: gate_set_pop never lowers
block_len, and nothing else that circuit_update runs does. -/
theorem circuit_update_never_returns (env : Env) (n : Nat) (c : Circuit)
    (h : gate_set_empty c.dirty = false) : ∀ c1, circuit_update env n c ≠ .ok c1 := by
  induction n generalizing c with
  | zero =>
    intro c1 hc
    unfold circuit_update at hc
    rw [h] at hc
    cases hc
  | succ n ih =>
    intro c1 hc
    unfold circuit_update at hc
    rw [h] at hc
    simp only [Bool.false_eq_true, if_false] at hc
    split at hc
    · cases hc
    · rename_i id d hp
      split at hc
      · cases hc
      · rename_i c2 hu
        have h1 := gate_set_pop_block_len _ _ _ hp
        have h2 := circuit_update_gate_dirty _ _ _ _ hu
        simp only [] at h2
        refine ih c2 ?_ c1 hc
        unfold gate_set_empty at h ⊢
        simp only [decide_eq_false_iff_not, not_le] at h ⊢
        omega


/-- A loop that runs at least one round is undefined behaviour, when the body can only
fault with undefined behaviour: the step after the first round is. -/
theorem for_each_loop_undefined {σ : Type} (body : σ → Int → Except (Fault × σ) σ)
    (hbody : ∀ s id e, body s id = .error e → e.1 = .undefined)
    (n : Nat) (it : GateSetIter) (s : σ) (h : it.block_idx < it.set.block_cap) :
    faultOf (for_each_loop body (n + 1) it s) = some .undefined := by
  unfold for_each_loop
  rw [if_pos h]
  cases hb : body s it.curr with
  | error e =>
    have := hbody _ _ _ hb
    obtain ⟨f, s1⟩ := e
    simp only [] at this
    subst this
    rfl
  | ok s1 =>
    simp only [gate_set_iter_step_undefined it h]
    rfl

/-- The statement FOR_EACH_GATE over a set with storage is undefined behaviour. -/
theorem FOR_EACH_GATE_undefined {σ : Type} (body : σ → Int → Except (Fault × σ) σ)
    (hbody : ∀ s id e, body s id = .error e → e.1 = .undefined)
    (n : Nat) (it0 : GateSetIter) (set : GateSet) (s : σ) (h : 0 < set.block_cap) :
    faultOf (FOR_EACH_GATE (n + 1) it0 set body s) = some .undefined := by
  unfold FOR_EACH_GATE gate_set_iter_init
  simp only [h, if_true]
  cases hl : load set.bits 0 with
  | error f =>
    rw [load_fault _ _ _ hl]
    rfl
  | ok b =>
    simp only [bind, Except.bind, pure, Except.pure]
    exact for_each_loop_undefined body hbody n _ s h

/-- The only fault of circuit_gate_mark_dirty is undefined behaviour. -/
theorem circuit_gate_mark_dirty_fault (env : Env) (c : Circuit) (id : Int)
    (e : Fault × Circuit) (h : circuit_gate_mark_dirty env c id = .error e) :
    e.1 = .undefined := by
  unfold circuit_gate_mark_dirty at h
  split at h
  · cases h
  · rename_i f hf
    cases h
    exact gate_set_mark_fault _ _ _ _ hf

/-- Every notification of a port whose subscriber set has storage is undefined
behaviour: gate_set_iter_step shifts an int by 64 - idx - 1 >= 32. -/
theorem circuit_port_notify_undefined (fresh : Nat → Nat) (it0 : GateSetIter) (n : Nat)
    (c : Circuit) (id : Int) (set : GateSet)
    (hs : load c.subs id = .ok set) (hc : 0 < set.block_cap) :
    faultOf (circuit_port_notify ⟨fresh, it0, n + 1⟩ c id) = some .undefined := by
  unfold circuit_port_notify
  rw [hs]
  exact FOR_EACH_GATE_undefined _ (circuit_gate_mark_dirty_fault _) n it0 set c hc


/-! ## What the gate set operations do -/

/-- The builtin __builtin_ctz counts over 32 bits: its result is at most 31. -/
theorem ctz32_le (x idx : Nat) (h : ctz32 x = .ok idx) : idx ≤ 31 := by
  unfold ctz32 at h
  split at h
  · rename_i i hi
    cases h
    have := List.mem_of_find?_eq_some hi
    simp only [List.mem_range] at this
    omega
  · cases h

/-- The id gate_set_pop returns lies in block block_len, which is past every block
the set tracks: it is block_len * 64 + (63 - idx) with idx <= 31. -/
theorem gate_set_pop_id_range (set s1 : GateSet) (id : Int)
    (h : gate_set_pop set = .ok (id, s1)) :
    set.block_len * 64 + 32 ≤ id ∧ id ≤ set.block_len * 64 + 63 := by
  unfold gate_set_pop at h
  split at h
  · cases h
  · cases hb : load set.bits (set.block_len - 1) with
    | error f => rw [hb] at h; cases h
    | ok b =>
      cases hc : ctz32 b with
      | error f => simp only [hb, hc, bind, Except.bind] at h; cases h
      | ok idx =>
        have hle := ctz32_le _ _ hc
        cases hm : shl1 idx with
        | error f => simp only [hb, hc, hm, bind, Except.bind] at h; cases h
        | ok m =>
          cases hs : store set.bits (set.block_len - 1) (b &&& notMask m) with
          | error f => simp only [hb, hc, hm, hs, bind, Except.bind] at h; cases h
          | ok bits =>
            simp only [hb, hc, hm, hs, bind, Except.bind, pure, Except.pure] at h
            cases h
            constructor <;> omega

/-- Marking an id whose bit index id & 63 is 31 or more is undefined behaviour: the
mask is computed as 1 << (id & 0x3f) on an int. -/
theorem gate_set_mark_high_bit (fresh : Nat → Nat) (set : GateSet) (id : Int)
    (h : 31 ≤ id % 64) : gate_set_mark fresh set id = .error .undefined := by
  unfold gate_set_mark
  cases hg : gate_set_grow fresh set (id / 64) with
  | error f =>
    rw [gate_set_grow_fault _ _ _ _ hg]
    rfl
  | ok s0 =>
    simp only [bind, Except.bind, shl1_high _ h]

/-- Marking within the capacity, at a bit index below 31, is right: the call
returns, id is marked afterwards and the membership of every other id is as before. -/
theorem gate_set_mark_in_capacity (fresh : Nat → Nat) (set : GateSet) (id : Nat)
    (hcap : ((id / 64 : Nat) : Int) < set.block_cap) (hlen : id / 64 < set.bits.length)
    (hbit : id % 64 < 31) :
    ∃ s1, gate_set_mark fresh set id = .ok s1 ∧ s1.marked id = true ∧
      (∀ j, j ≠ id → s1.marked j = set.marked j) ∧ s1.block_cap = set.block_cap := by
  have hdiv : ((id : Int) / 64) = ((id / 64 : Nat) : Int) := by omega
  have hmod : ((id : Int) % 64) = ((id % 64 : Nat) : Int) := by omega
  have hgrow : gate_set_grow fresh set ((id / 64 : Nat) : Int) = .ok set := by
    unfold gate_set_grow
    rw [if_neg (by omega)]
  have hsh : shl1 ((id % 64 : Nat) : Int) = .ok (2 ^ (id % 64)) := by
    unfold shl1
    rw [if_pos (by omega), Int.toNat_ofNat]
  have hget : set.bits[id / 64]? = some (set.bits.getD (id / 64) 0) := by
    rw [List.getD_eq_getElem?_getD, List.getElem?_eq_getElem hlen]
    rfl
  unfold gate_set_mark
  simp only [hdiv, hmod, hgrow, hsh, bind, Except.bind, pure, Except.pure, load, store,
    Int.toNat_ofNat, hget, hlen, and_true, Int.natCast_nonneg, if_true,
    if_neg (not_lt.mpr (Int.natCast_nonneg _))]
  refine ⟨_, rfl, ?_, ?_, rfl⟩
  · simp [GateSet.marked, List.getD_eq_getElem?_getD, List.getElem?_set_self hlen,
      Nat.testBit_or, Nat.testBit_two_pow]
  · intro j hj
    simp only [GateSet.marked, List.getD_eq_getElem?_getD]
    by_cases hb : j / 64 = id / 64
    · rw [hb, List.getElem?_set_self hlen]
      have hne : id % 64 ≠ j % 64 := by omega
      simp [Nat.testBit_or, Nat.testBit_two_pow, hne, List.getElem?_eq_getElem hlen]
    · rw [List.getElem?_set_ne (fun e => hb e.symm)]

/-- On every set with storage the iteration is undefined behaviour at its first step. -/
theorem iter_ids_undefined (n : Nat) (it0 : GateSetIter) (set : GateSet)
    (h : 0 < set.block_cap) : faultOf (iter_ids (n + 1) it0 set) = some .undefined := by
  unfold iter_ids
  exact FOR_EACH_GATE_undefined _ (fun s id e he => by cases he) n it0 set [] h

/-- On a set without storage the iteration runs no round. -/
theorem iter_ids_no_storage (n : Nat) (it0 : GateSetIter) (set : GateSet)
    (h : set.block_cap ≤ 0) : iter_ids n it0 set = .ok [] := by
  have hn : ¬ (0 : Int) < set.block_cap := by omega
  unfold iter_ids
  simp only [FOR_EACH_GATE, gate_set_iter_init, hn, if_false]
  cases n <;> simp [for_each_loop, hn]

/-- Popping cannot empty a set: the loop that pops until gate_set_empty never
returns when it starts on a non-empty set. -/
theorem pop_until_empty_never_returns (n : Nat) (set : GateSet) (popped : List Int)
    (h : gate_set_empty set = false) : ∀ r, pop_until_empty n set popped ≠ .ok r := by
  induction n generalizing set popped with
  | zero =>
    intro r hr
    unfold pop_until_empty at hr
    rw [h] at hr
    cases hr
  | succ n ih =>
    intro r hr
    unfold pop_until_empty at hr
    rw [h] at hr
    simp only [Bool.false_eq_true, if_false] at hr
    split at hr
    · cases hr
    · rename_i id set1 hp
      have h1 := gate_set_pop_block_len _ _ _ hp
      refine ih set1 _ ?_ r hr
      unfold gate_set_empty at h ⊢
      rw [h1]
      exact h


/-! ## Ports: read after write, frame, truth tables -/

/-- The expression (x >> k) & 1 is bit k of x. -/
theorem div_mod_two_eq (x k : Nat) : x / 2 ^ k % 2 = (x.testBit k).toNat := by
  rw [Nat.testBit_to_div_mod]
  rcases Nat.mod_two_eq_zero_or_one (x / 2 ^ k) with h | h <;> simp [h]

/-- The two read-modify-write statements of circuit_port_set on one byte: bit lo
becomes v, the other bits of the byte keep their value. -/
theorem byte_write_bit (b lo v k : Nat) (hlo : lo < 8) (hk : k < 8) (hv : v < 2) :
    (((b &&& notMask (2 ^ lo)) % 256 ||| v * 2 ^ lo) % 256) / 2 ^ k % 2 =
      if k = lo then v else b / 2 ^ k % 2 := by
  have h256 : (256 : Nat) = 2 ^ 8 := by norm_num
  have hm : notMask (2 ^ lo) = 2 ^ 64 - (2 ^ lo + 1) := by unfold notMask; omega
  have hlt : 2 ^ lo < 2 ^ 64 := Nat.pow_lt_pow_right (by norm_num) (by omega)
  rw [div_mod_two_eq, div_mod_two_eq, h256, hm]
  simp only [Nat.testBit_mod_two_pow, Nat.testBit_or, Nat.testBit_and,
    Nat.testBit_two_pow_sub_succ hlt, Nat.testBit_two_pow, hk, decide_True, Bool.true_and]
  have hk64 : k < 64 := by omega
  interval_cases v
  · simp [hk64]
    split_ifs with h
    · subst h; simp
    · have : lo ≠ k := fun e => h e.symm
      simp [this]
  · simp [hk64, Nat.testBit_two_pow]
    split_ifs with h
    · subst h; simp
    · have : lo ≠ k := fun e => h e.symm
      simp [this]

/-- The fields a notification leaves alone: everything but the dirty set. -/
theorem circuit_port_notify_frame (env : Env) (c c1 : Circuit) (id : Int)
    (h : circuit_port_notify env c id = .ok c1) :
    c1.ports = c.ports ∧ c1.len_ports = c.len_ports ∧ c1.subs = c.subs ∧
      c1.gates = c.gates ∧ c1.len_gates = c.len_gates ∧ c1.calls = c.calls := by
  unfold circuit_port_notify at h
  split at h
  · cases h
  · rename_i set _
    unfold FOR_EACH_GATE at h
    split at h
    · cases h
    · rename_i it _
      refine for_each_loop_inv
        (fun x => x.ports = c.ports ∧ x.len_ports = c.len_ports ∧ x.subs = c.subs ∧
          x.gates = c.gates ∧ x.len_gates = c.len_gates ∧ x.calls = c.calls)
        (circuit_gate_mark_dirty env) ?_ env.rounds it c c1 ⟨rfl, rfl, rfl, rfl, rfl, rfl⟩ h
      intro s id s1 hs hm
      unfold circuit_gate_mark_dirty at hm
      split at hm
      · cases hm
        exact hs
      · cases hm

/-- A notification of a port whose subscriber set has no storage does nothing. -/
theorem circuit_port_notify_no_storage (env : Env) (c : Circuit) (id : Int) (set : GateSet)
    (hs : load c.subs id = .ok set) (hc : set.block_cap ≤ 0) :
    circuit_port_notify env c id = .ok c := by
  unfold circuit_port_notify
  rw [hs]
  have hn : ¬ (0 : Int) < set.block_cap := by omega
  simp only [FOR_EACH_GATE, gate_set_iter_init, hn, if_false]
  cases env.rounds <;> simp [for_each_loop, hn]

/-- What a returning circuit_port_set has done: the byte of the port is rewritten
and the notification ran on the circuit with the new byte. -/
theorem circuit_port_set_ok (env : Env) (c c1 : Circuit) (id value : Int)
    (h : circuit_port_set env c id value = .ok c1) :
    ∃ b, 0 ≤ id ∧ id < c.len_ports ∧ c.ports[(id / 8).toNat]? = some b ∧
      c1.ports = c.ports.set (id / 8).toNat
        (((b &&& notMask (2 ^ (id % 8).toNat)) % 256 |||
          (value % 2).toNat * 2 ^ (id % 8).toNat) % 256) ∧
      c1.len_ports = c.len_ports := by
  unfold circuit_port_set at h
  split at h
  · cases h
  · rename_i hlt
    simp only [] at h
    split at h
    · cases h
    · rename_i ports hp
      have hf := circuit_port_notify_frame _ _ _ _ h
      simp only [] at hf
      have h8 : 0 ≤ id % 8 ∧ id % 8 < 31 := by omega
      simp only [shl1, h8, and_self, if_true, bind, Except.bind] at hp
      cases hl : load c.ports (id / 8) with
      | error f => simp only [hl] at hp; cases hp
      | ok b =>
        have hi := load_ok_nonneg _ _ _ hl
        unfold load at hl
        rw [if_neg (by omega)] at hl
        cases hg : c.ports[(id / 8).toNat]? with
        | none => simp only [hg] at hl; cases hl
        | some b0 =>
          simp only [hg] at hl
          cases hl
          have hlen : (id / 8).toNat < c.ports.length := by
            by_contra hcon
            rw [List.getElem?_eq_none (by omega)] at hg
            cases hg
          simp only [load, store, hi, hlen, and_self, if_true, hg, if_neg (not_lt.mpr hi),
            List.length_set, List.getElem?_set_self hlen, List.set_set] at hp
          cases hp
          refine ⟨b, by omega, by omega, rfl, hf.1, hf.2.1⟩

/-- A returning circuit_port_get: the port id is in 0 .. len_ports - 1 and its
byte is in the storage; the bit returned is its bit id & 7. -/
theorem circuit_port_get_ok (c : Circuit) (id x : Int) (h : circuit_port_get c id = .ok x) :
    ∃ b, 0 ≤ id ∧ id < c.len_ports ∧ c.ports[(id / 8).toNat]? = some b ∧
      x = ((b / 2 ^ (id % 8).toNat % 2 : Nat) : Int) := by
  unfold circuit_port_get at h
  split at h
  · cases h
  · cases hl : load c.ports (id / 8) with
    | error f => simp only [hl] at h; cases h
    | ok b =>
      have hi := load_ok_nonneg _ _ _ hl
      simp only [hl] at h
      cases h
      unfold load at hl
      rw [if_neg (by omega)] at hl
      cases hg : c.ports[(id / 8).toNat]? with
      | none => simp only [hg] at hl; cases hl
      | some b0 =>
        simp only [hg] at hl
        cases hl
        exact ⟨b, by omega, by omega, rfl, rfl⟩

/-- The value circuit_port_get returns for an allocated port whose byte is b. -/
theorem circuit_port_get_of (c : Circuit) (id : Int) (b : Nat) (h0 : 0 ≤ id)
    (h1 : id < c.len_ports) (hb : c.ports[(id / 8).toNat]? = some b) :
    circuit_port_get c id = .ok ((b / 2 ^ (id % 8).toNat % 2 : Nat) : Int) := by
  unfold circuit_port_get load
  rw [if_neg (by omega), if_neg (by omega)]
  simp only [hb]

/-- The bit circuit_port_get returns is 0 or 1. -/
theorem circuit_port_get_bit (c : Circuit) (id x : Int) (h : circuit_port_get c id = .ok x) :
    x = 0 ∨ x = 1 := by
  obtain ⟨b, _, _, _, hx⟩ := circuit_port_get_ok c id x h
  subst hx
  rcases Nat.mod_two_eq_zero_or_one (b / 2 ^ (id % 8).toNat) with h | h <;> simp [h]

/-- Read after write: whenever circuit_port_set(id, value) returns, circuit_port_get
of the same port returns value & 1. -/
theorem circuit_port_set_get (env : Env) (c c1 : Circuit) (id value : Int)
    (h : circuit_port_set env c id value = .ok c1) :
    circuit_port_get c1 id = .ok (value % 2) := by
  obtain ⟨b, h0, h1, hb, hp, hl⟩ := circuit_port_set_ok env c c1 id value h
  have hlen : (id / 8).toNat < c.ports.length := by
    by_contra hcon
    rw [List.getElem?_eq_none (by omega)] at hb
    cases hb
  have hget := circuit_port_get_of c1 id _ h0 (by omega)
    (by rw [hp, List.getElem?_set_self hlen])
  rw [hget]
  have hv : (value % 2).toNat < 2 := by omega
  rw [byte_write_bit b (id % 8).toNat (value % 2).toNat (id % 8).toNat (by omega) (by omega) hv]
  simp only [if_true]
  congr 1
  omega

/-- Frame of circuit_port_set: whenever circuit_port_set(id, value) returns, every
other port that could be read before reads the same bit, also one packed in the
same byte. -/
theorem circuit_port_set_frame (env : Env) (c c1 : Circuit) (id value q x : Int)
    (h : circuit_port_set env c id value = .ok c1) (hq : q ≠ id)
    (hx : circuit_port_get c q = .ok x) :
    circuit_port_get c1 q = .ok x := by
  obtain ⟨b, h0, h1, hb, hp, hl⟩ := circuit_port_set_ok env c c1 id value h
  obtain ⟨bq, hq0, hq1, hbq, hxq⟩ := circuit_port_get_ok c q x hx
  have hlen : (id / 8).toNat < c.ports.length := by
    by_contra hcon
    rw [List.getElem?_eq_none (by omega)] at hb
    cases hb
  subst hxq
  by_cases hsame : (q / 8).toNat = (id / 8).toNat
  · have hbb : bq = b := by
      rw [hsame, hb] at hbq
      cases hbq
      rfl
    subst hbb
    have hget := circuit_port_get_of c1 q _ hq0 (by omega)
      (by rw [hp, hsame, List.getElem?_set_self hlen])
    rw [hget]
    have hv : (value % 2).toNat < 2 := by omega
    rw [byte_write_bit bq (id % 8).toNat (value % 2).toNat (q % 8).toNat (by omega) (by omega) hv]
    have hne : (q % 8).toNat ≠ (id % 8).toNat := by omega
    rw [if_neg hne]
  · have hget := circuit_port_get_of c1 q bq hq0 (by omega)
      (by rw [hp, List.getElem?_set_ne (fun e => hsame e.symm)]; exact hbq)
    rw [hget]

/-- The call circuit_port_set(id, value) returns when the port is allocated, its
byte is in the storage and its subscriber set has no storage. -/
theorem circuit_port_set_returns (env : Env) (c : Circuit) (id value : Int) (b : Nat)
    (set : GateSet) (h0 : 0 ≤ id) (h1 : id < c.len_ports)
    (hb : c.ports[(id / 8).toNat]? = some b)
    (hs : load c.subs id = .ok set) (hc : set.block_cap ≤ 0) :
    ∃ c1, circuit_port_set env c id value = .ok c1 := by
  have hlen : (id / 8).toNat < c.ports.length := by
    by_contra hcon
    rw [List.getElem?_eq_none (by omega)] at hb
    cases hb
  have h8 : 0 ≤ id % 8 ∧ id % 8 < 31 := by omega
  have hi : 0 ≤ id / 8 := by omega
  unfold circuit_port_set
  rw [if_neg (by omega)]
  simp only [shl1, h8, and_self, if_true, bind, Except.bind, load, store, hi, hlen, hb,
    if_neg (not_lt.mpr hi), List.length_set, List.getElem?_set_self hlen]
  exact ⟨_, circuit_port_notify_no_storage env _ id set hs hc⟩

/-- Truth tables of the one-input gates: whenever circuit_update_gate returns on a
Wire or Not gate whose input port held the bit a, the output port holds Wire(a) = a
or Not(a) = 1 - a. -/
theorem circuit_update_gate_unary (env : Env) (c c1 : Circuit) (gate : Int) (g : Gate)
    (k : GateKind) (a : Int)
    (hg : load c.gates gate = .ok g) (hk : GateKind.ofTag g.kind = some k)
    (hkind : k = .Wire ∨ k = .Not)
    (ha : circuit_port_get c g.inputs0 = .ok a)
    (h : circuit_update_gate env c gate = .ok c1) :
    circuit_port_get c1 g.output = .ok (gate_table k a 0) := by
  unfold circuit_update_gate at h
  split at h
  · cases h
  · simp only [hg, hk] at h
    have hbit := circuit_port_get_bit _ _ _ ha
    rcases hkind with rfl | rfl
    · simp only [ha, bind, Except.bind] at h
      rw [circuit_port_set_get _ _ _ _ _ h]
      rcases hbit with rfl | rfl <;> rfl
    · simp only [ha, bind, Except.bind] at h
      rw [circuit_port_set_get _ _ _ _ _ h]
      rcases hbit with rfl | rfl <;> rfl

/-- Truth tables of the two-input gates: whenever circuit_update_gate returns on an
And, Or or Nor gate whose input ports held the bits a and b, the output port holds
the value of the truth table. -/
theorem circuit_update_gate_binary (env : Env) (c c1 : Circuit) (gate : Int) (g : Gate)
    (k : GateKind) (a b : Int)
    (hg : load c.gates gate = .ok g) (hk : GateKind.ofTag g.kind = some k)
    (hkind : k = .And ∨ k = .Or ∨ k = .Nor)
    (ha : circuit_port_get c g.inputs0 = .ok a)
    (hb : circuit_port_get c g.inputs1 = .ok b)
    (h : circuit_update_gate env c gate = .ok c1) :
    circuit_port_get c1 g.output = .ok (gate_table k a b) := by
  unfold circuit_update_gate at h
  split at h
  · cases h
  · simp only [hg, hk] at h
    have hbit := circuit_port_get_bit _ _ _ ha
    have hbit2 := circuit_port_get_bit _ _ _ hb
    rcases hkind with rfl | rfl | rfl
    all_goals
      simp only [ha, hb, bind, Except.bind] at h
      rw [circuit_port_set_get _ _ _ _ _ h]
      rcases hbit with rfl | rfl <;> rcases hbit2 with rfl | rfl <;> rfl

/-- An In gate: whenever circuit_update_gate returns, the output port holds the
stored literal & 1. -/
theorem circuit_update_gate_in (env : Env) (c c1 : Circuit) (gate : Int) (g : Gate)
    (hg : load c.gates gate = .ok g) (hk : GateKind.ofTag g.kind = some .In)
    (h : circuit_update_gate env c gate = .ok c1) :
    circuit_port_get c1 g.output = .ok (g.value % 2) := by
  unfold circuit_update_gate at h
  split at h
  · cases h
  · simp only [hg, hk] at h
    exact circuit_port_set_get _ _ _ _ _ h

/-- The Nor gate with an output port without subscribers: circuit_update_gate
returns and the output port holds Nor(a, b), for all four inputs. -/
theorem nor_unwatched_table (env : Env) (a b : Bool) :
    ∃ c1, circuit_update_gate env (nor_unwatched a b) 0 = .ok c1 ∧
      circuit_port_get c1 0 = .ok (gate_table .Nor a.toNat b.toNat) := by
  have ha : circuit_port_get (nor_unwatched a b) 1 = .ok (a.toNat : Int) := by
    cases a <;> cases b <;> rfl
  have hb : circuit_port_get (nor_unwatched a b) 2 = .ok (b.toNat : Int) := by
    cases a <;> cases b <;> rfl
  have hret : ∃ c1, circuit_update_gate env (nor_unwatched a b) 0 = .ok c1 := by
    unfold circuit_update_gate
    simp only [nor_unwatched, load, GateKind.ofTag, GateKind.tag, Gate.zero] at ha hb ⊢
    simp only [ha, hb, bind, Except.bind]
    simp
    exact circuit_port_set_returns env _ 0 _ (2 * a.toNat + 4 * b.toNat) GateSet.zeroed
      (by decide) (by simp) rfl rfl (by decide)
  obtain ⟨c1, h1⟩ := hret
  exact ⟨c1, h1, circuit_update_gate_binary env (nor_unwatched a b) c1 0
    { Gate.zero with kind := GateKind.Nor.tag, inputs0 := 1, inputs1 := 2, output := 0 }
    .Nor _ _ rfl rfl (Or.inr (Or.inr rfl)) ha hb h1⟩

/-- The function circuit_update_gate is its assert, the copy of the record and the
switch on the copy. -/
theorem circuit_update_gate_eq_switch (env : Env) (c : Circuit) (gate : Int) :
    circuit_update_gate env c gate =
      if ¬ gate < c.len_gates then .error (.assertion, c)
      else
        match load c.gates gate with
        | .error f => .error (f, c)
        | .ok g => gate_switch env c g := by
  unfold circuit_update_gate gate_switch
  rfl

/-- For an index that is not negative, the machine-level reading of
circuit_update_gate is circuit_update_gate. -/
theorem circuit_update_gate_front_nonneg (front : Nat → Gate) (env : Env) (c : Circuit)
    (gate : Int) (h : 0 ≤ gate) :
    circuit_update_gate_front front env c gate = circuit_update_gate env c gate := by
  rw [circuit_update_gate_eq_switch]
  unfold circuit_update_gate_front
  rw [if_neg (not_lt.mpr h)]

/-! ## Evaluations at concrete inputs -/

/-- Marking id 0 in a zeroed set: the storage grows to 8 blocks, memset zeroes 8
bytes, which is block 0 alone, and blocks 1..7 keep their indeterminate contents. -/
theorem mark_zeroed_zero (fresh : Nat → Nat) :
    gate_set_mark fresh GateSet.zeroed 0 =
      .ok { bits := [1, fresh 1 % 2 ^ 64, fresh 2 % 2 ^ 64, fresh 3 % 2 ^ 64, fresh 4 % 2 ^ 64,
                     fresh 5 % 2 ^ 64, fresh 6 % 2 ^ 64, fresh 7 % 2 ^ 64]
            block_len := 1, block_cap := 8 } := by
  simp [gate_set_mark, gate_set_grow, GateSet.zeroed, realloc, memset0, shl1, load, store,
    bind, Except.bind, pure, Except.pure, List.range, List.range.loop]

/-- Popping from a set whose only tracked block holds the single bit 0: the id
returned is 1 * 64 + (64 - 0 - 1) = 127 and block_len stays 1. -/
theorem pop_first (bits : List Nat) (cap : Int) :
    gate_set_pop { bits := 1 :: bits, block_len := 1, block_cap := cap } =
      .ok (127, { bits := 0 :: bits, block_len := 1, block_cap := cap }) := by
  simp [gate_set_pop, gate_set_empty, load, store, ctz32, shl1, notMask, bind, Except.bind,
    pure, Except.pure, List.range, List.range.loop]

/-- The chain with its In gate marked dirty: circuit_update stops at the assert of
circuit_update_gate, in the state given. -/
theorem chain_update (env : Env) (subs : List GateSet) (n : Nat) :
    (circuit_gate_mark_dirty env (chain subs) 0 >>= circuit_update env (n + 1)) =
      .error (.assertion,
        { chain subs with
            dirty :=
              { bits := [0, env.fresh 1 % 2 ^ 64, env.fresh 2 % 2 ^ 64, env.fresh 3 % 2 ^ 64,
                         env.fresh 4 % 2 ^ 64, env.fresh 5 % 2 ^ 64, env.fresh 6 % 2 ^ 64,
                         env.fresh 7 % 2 ^ 64]
                block_len := 1, block_cap := 8 } }) := by
  unfold circuit_gate_mark_dirty
  simp only [chain, mark_zeroed_zero, bind, Except.bind]
  unfold circuit_update
  simp [gate_set_empty, pop_first, circuit_update_gate]

/-- The notification of a port whose only subscriber is gate 2, entered with 7 in
the uninitialised it.curr: the state at the undefined step. -/
theorem one_subscriber_notify (fresh : Nat → Nat) (n : Nat) :
    circuit_port_notify ⟨fresh, stale_iter 7, n + 1⟩ one_subscriber 0 =
      .error (.undefined,
        { one_subscriber with
            dirty :=
              { bits := [128, fresh 1 % 2 ^ 64, fresh 2 % 2 ^ 64, fresh 3 % 2 ^ 64,
                         fresh 4 % 2 ^ 64, fresh 5 % 2 ^ 64, fresh 6 % 2 ^ 64, fresh 7 % 2 ^ 64]
                block_len := 1, block_cap := 8 } }) := by
  have hm : gate_set_mark fresh GateSet.zeroed 7 =
      .ok { bits := [128, fresh 1 % 2 ^ 64, fresh 2 % 2 ^ 64, fresh 3 % 2 ^ 64,
                     fresh 4 % 2 ^ 64, fresh 5 % 2 ^ 64, fresh 6 % 2 ^ 64, fresh 7 % 2 ^ 64]
            block_len := 1, block_cap := 8 } := by
    simp [gate_set_mark, gate_set_grow, GateSet.zeroed, realloc, memset0, shl1, load, store,
      bind, Except.bind, pure, Except.pure, List.range, List.range.loop]
  unfold circuit_port_notify
  simp only [one_subscriber, load, FOR_EACH_GATE, gate_set_iter_init, GateSet.single, stale_iter,
    for_each_loop, circuit_gate_mark_dirty, hm]
  simp [bind, Except.bind, pure, Except.pure, gate_set_iter_step, clz32, shl1, Nat.log2, hm]

/-- On a Wire gate from p1 to p0 where p0 has a subscriber, circuit_update_gate
stops after the write of p0: the notification of p0 reaches undefined behaviour
(a shift of an int by 33), for both values of the input bit and whatever the
indeterminate values are. -/
theorem update_gate_wire_watched_undefined (fresh : Nat → Nat) (it0 : GateSetIter)
    (n a : Nat) :
    faultOf (circuit_update_gate ⟨fresh, it0, n + 1⟩ (wire_watched a) 0) = some .undefined := by
  unfold circuit_update_gate
  simp [wire_watched, load, GateKind.ofTag, GateKind.tag, Gate.zero, circuit_port_get,
    circuit_port_set, bind, Except.bind, shl1, store, notMask]
  apply circuit_port_notify_undefined _ _ _ _ _ (GateSet.single 1)
  · rfl
  · decide

/-- On a circuit where p0 has one subscriber, circuit_port_set(p0, v) stops after
the write of the bit, for every v: the notification reaches undefined behaviour. -/
theorem port_set_subscribed_undefined (fresh : Nat → Nat) (it0 : GateSetIter) (n : Nat)
    (v : Int) :
    faultOf (circuit_port_set ⟨fresh, it0, n + 1⟩ one_subscriber 0 v) = some .undefined := by
  unfold circuit_port_set
  simp [one_subscriber, load, bind, Except.bind, shl1, store, notMask]
  apply circuit_port_notify_undefined _ _ _ _ _ (GateSet.single 2)
  · rfl
  · decide

/-- The evaluation of the Nor gate of nor_unwatched false false returns and leaves
the circuit nor_settled. -/
theorem nor_settled_reached (env : Env) :
    circuit_update_gate env (nor_unwatched false false) 0 = .ok nor_settled := by
  simp [circuit_update_gate, nor_unwatched, nor_settled, load, GateKind.ofTag, GateKind.tag,
    Gate.zero, circuit_port_get, circuit_port_set, shl1, store, notMask, bind, Except.bind,
    circuit_port_notify, FOR_EACH_GATE, gate_set_iter_init, GateSet.zeroed]
  cases env.rounds <;> simp [for_each_loop]

/-!
## The claims

Each theorem of this section runs the code on one concrete input and records
what it does there. The general facts behind them are proved above:
circuit_update_never_returns and gate_set_pop_id_range (gate_set_pop),
circuit_port_notify_undefined and gate_set_iter_step_undefined (FOR_EACH_GATE),
gate_set_mark_high_bit (the int-typed mask of gate_set_mark), and, for what the
code gets right, circuit_port_set_get, circuit_port_set_frame, the truth tables
circuit_update_gate_unary and circuit_update_gate_binary, and
gate_set_mark_in_capacity.
-/

/-- C1 (fails on the code). The claim: on an acyclic, well-formed circuit
circuit_update terminates with an empty dirty set. On the circuit of one port and
one In gate, with that gate marked dirty, gate_set_pop returns the id 127 instead
of 0 and leaves block_len at 1, and circuit_update aborts at the assert
gate < len_gates of circuit_update_gate, for every number of rounds allowed and
whatever the fresh storage holds. -/
theorem circuit_update_aborts_single_input (env : Env) (n : Nat) :
    (circuit_gate_mark_dirty env single_input 0 >>= circuit_update env (n + 1)) =
      .error (.assertion,
        { single_input with
            dirty :=
              { bits := [0, env.fresh 1 % 2 ^ 64, env.fresh 2 % 2 ^ 64, env.fresh 3 % 2 ^ 64,
                         env.fresh 4 % 2 ^ 64, env.fresh 5 % 2 ^ 64, env.fresh 6 % 2 ^ 64,
                         env.fresh 7 % 2 ^ 64]
                block_len := 1, block_cap := 8 } }) := by
  unfold circuit_gate_mark_dirty
  simp only [single_input, mark_zeroed_zero, bind, Except.bind]
  unfold circuit_update
  simp [gate_set_empty, pop_first, circuit_update_gate]

/-- C2 (fails on the code). The claim: on the chain In(p0) -> Not -> Wire -> Out(p2),
after marking the In gate dirty and draining, the Out callback has run exactly
once, with value 0. On the code the drain aborts at the assert of
circuit_update_gate (the id popped is 127, not 0) before any gate is evaluated:
no callback has been invoked and no port written, whatever the subscriber sets
and the fresh storage hold. -/
theorem chain_drain_aborts_before_output (env : Env) (subs : List GateSet) (n : Nat) :
    ∃ c1, (circuit_gate_mark_dirty env (chain subs) 0 >>= circuit_update env (n + 1)) =
        .error (.assertion, c1) ∧
      c1.calls = [] ∧ c1.ports = [0] :=
  ⟨_, chain_update env subs n, rfl, rfl⟩

/-- C5 (fails on the code). The claim: the notification of a port marks dirty
exactly the gates subscribed to it. On a port whose one subscriber is gate 2, with
an iterator variable that happens to hold 7 in its field curr, the first round of
FOR_EACH_GATE marks the stale id 7 dirty, and the step that follows is undefined
behaviour (clz gives 29, the shift count is 34): at that point gate 2 is not
dirty and gate 7, which is not subscribed, is. -/
theorem notify_marks_stale_id_not_subscriber (fresh : Nat → Nat) (n : Nat) :
    ∃ c1, circuit_port_notify ⟨fresh, stale_iter 7, n + 1⟩ one_subscriber 0 =
        .error (.undefined, c1) ∧
      c1.dirty.marked 2 = false ∧ c1.dirty.marked 7 = true ∧
      (GateSet.single 2).marked 2 = true ∧ (GateSet.single 2).marked 7 = false :=
  ⟨_, one_subscriber_notify fresh n, by simp [GateSet.marked]; decide,
    by simp [GateSet.marked]; decide, by decide, by decide⟩

/-- C6 (fails on the code). The claim: after any sequence of mark and unmark calls
gate_set_empty is true exactly when no id is net-marked. After mark(0); unmark(0)
no id is net-marked, yet the call never returns an empty set: when the fresh
block 1 is non-zero block_len stays 1, and when it is zero the loop of
gate_set_unmark runs down to a read of bits[-1]. After mark(0); mark(1);
unmark(0) on storage that reads zero, id 1 is net-marked and still stored, yet
block_len is 0 and gate_set_empty is true. -/
theorem empty_disagrees_with_net_marked :
    net_marked [.mark 0, .unmark 0] = [] ∧
    (∀ fresh : Nat → Nat,
      run_ops fresh [.mark 0, .unmark 0] GateSet.zeroed =
        if fresh 1 % 2 ^ 64 = 0 then .error .undefined
        else .ok { bits := [0, fresh 1 % 2 ^ 64, fresh 2 % 2 ^ 64, fresh 3 % 2 ^ 64,
                            fresh 4 % 2 ^ 64, fresh 5 % 2 ^ 64, fresh 6 % 2 ^ 64, fresh 7 % 2 ^ 64]
                   block_len := 1, block_cap := 8 }) ∧
    net_marked [.mark 0, .mark 1, .unmark 0] = [1] ∧
    run_ops (fun _ => 0) [.mark 0, .mark 1, .unmark 0] GateSet.zeroed =
      .ok { bits := [2, 0, 0, 0, 0, 0, 0, 0], block_len := 0, block_cap := 8 } ∧
    gate_set_empty { bits := [2, 0, 0, 0, 0, 0, 0, 0], block_len := 0, block_cap := 8 } = true ∧
    GateSet.marked { bits := [2, 0, 0, 0, 0, 0, 0, 0], block_len := 0, block_cap := 8 } 1 = true := by
  refine ⟨by decide, ?_, by decide, ?_, by decide, by decide⟩
  · intro fresh
    simp only [run_ops, Nat.cast_zero, mark_zeroed_zero]
    simp [gate_set_unmark, shl1, load, store, notMask, unmark_scan, bind, Except.bind, pure,
      Except.pure]
    split_ifs <;> rfl
  · simp [run_ops, gate_set_mark, gate_set_grow, GateSet.zeroed, realloc, memset0, shl1, load,
      store, gate_set_unmark, notMask, unmark_scan,
      bind, Except.bind, pure, Except.pure, List.range, List.range.loop]
    rfl

/-- C7 (fails on the code). The claim: FOR_EACH_GATE hands the body exactly the
marked ids, in ascending order. On the set that holds id 0 alone, the body is
first run on the uninitialised it.curr (gate_set_iter_init does not write it),
and the step that follows is undefined behaviour: clz of block 1 is 31, so curr
would be 31 and the shift count 64 - 31 - 1 = 32. The id 0 is never handed over. -/
theorem iteration_yields_stale_id_then_undefined (fresh : Nat → Nat) (it0 : GateSetIter)
    (n : Nat) :
    ∃ set, gate_set_mark fresh GateSet.zeroed 0 = .ok set ∧
      set.marked 0 = true ∧
      iter_ids (n + 1) it0 set = .error (.undefined, [it0.curr]) := by
  refine ⟨_, mark_zeroed_zero fresh, by simp [GateSet.marked], ?_⟩
  simp [iter_ids, FOR_EACH_GATE, gate_set_iter_init, load, for_each_loop, bind, Except.bind,
    pure, Except.pure, gate_set_iter_step, clz32, shl1, Nat.log2]

/-- C8 (fails on the code). The claim: gate_set_pop returns an id that was marked
and unmarks it; after gate_set_mark(0) on a zeroed set, pop returns 0. On the
code that pop returns 127, and the set it leaves is still not empty for
gate_set_empty although no bit of block 0 is set any more. -/
theorem pop_after_mark_zero_returns_127 (fresh : Nat → Nat) :
    ∃ set set1, gate_set_mark fresh GateSet.zeroed 0 = .ok set ∧
      set.marked 0 = true ∧
      gate_set_empty set = false ∧
      gate_set_pop set = .ok (127, set1) ∧
      gate_set_empty set1 = false ∧ set1.marked 0 = false := by
  refine ⟨_, _, mark_zeroed_zero fresh, by simp [GateSet.marked], by simp [gate_set_empty],
    pop_first _ _, by simp [gate_set_empty], by simp [GateSet.marked]⟩

/-- C9 (fails on the code). The claim: popping until the set is empty takes exactly
as many pops as ids were marked and returns exactly those ids. For the one id 0
the first pop returns 127 and the set stays non-empty; the second pop scans the
zero block with __builtin_ctz, which is undefined behaviour. The loop never ends
with an empty set. -/
theorem pop_loop_after_mark_zero_undefined (fresh : Nat → Nat) (n : Nat) :
    ∃ set, gate_set_mark fresh GateSet.zeroed 0 = .ok set ∧
      pop_until_empty (n + 2) set [] = .error (.undefined, [127]) := by
  refine ⟨_, mark_zeroed_zero fresh, ?_⟩
  simp [pop_until_empty, gate_set_empty, pop_first]
  simp [gate_set_pop, gate_set_empty, load, ctz32, bind, Except.bind, List.range, List.range.loop]

/-- C10 (fails on the code). The claim: gate_set_mark keeps every id marked before,
also when the storage grows. After gate_set_mark(0), the call gate_set_mark(512)
grows the storage from 8 to 16 blocks and its memset(bits, 0, 16 - 8) zeroes the
first 8 bytes of the array, which is block 0: id 0 is no longer marked, and the
blocks added keep their indeterminate contents. -/
theorem mark_growth_clears_block_zero (fresh : Nat → Nat) :
    ∃ set1, gate_set_mark fresh GateSet.zeroed 0 = .ok set1 ∧
      set1.marked 0 = true ∧
      gate_set_mark fresh set1 512 =
        .ok { bits := [0, fresh 1 % 2 ^ 64, fresh 2 % 2 ^ 64, fresh 3 % 2 ^ 64, fresh 4 % 2 ^ 64,
                       fresh 5 % 2 ^ 64, fresh 6 % 2 ^ 64, fresh 7 % 2 ^ 64,
                       fresh 8 % 2 ^ 64 ||| 1, fresh 9 % 2 ^ 64, fresh 10 % 2 ^ 64,
                       fresh 11 % 2 ^ 64, fresh 12 % 2 ^ 64, fresh 13 % 2 ^ 64,
                       fresh 14 % 2 ^ 64, fresh 15 % 2 ^ 64]
              block_len := 9, block_cap := 16 } ∧
      GateSet.marked
        { bits := [0, fresh 1 % 2 ^ 64, fresh 2 % 2 ^ 64, fresh 3 % 2 ^ 64, fresh 4 % 2 ^ 64,
                   fresh 5 % 2 ^ 64, fresh 6 % 2 ^ 64, fresh 7 % 2 ^ 64,
                   fresh 8 % 2 ^ 64 ||| 1, fresh 9 % 2 ^ 64, fresh 10 % 2 ^ 64,
                   fresh 11 % 2 ^ 64, fresh 12 % 2 ^ 64, fresh 13 % 2 ^ 64,
                   fresh 14 % 2 ^ 64, fresh 15 % 2 ^ 64]
          block_len := 9, block_cap := 16 } 0 = false := by
  refine ⟨_, mark_zeroed_zero fresh, by simp [GateSet.marked], ?_, by simp [GateSet.marked]⟩
  simp [gate_set_mark, gate_set_grow, realloc, memset0, shl1, load, store,
    bind, Except.bind, pure, Except.pure, List.range, List.range.loop]

/-!
## Allocation, reachability and the representation invariants
-/

/-- Marking id 7 in a zeroed set. -/
theorem mark_zeroed_seven (fresh : Nat → Nat) :
    gate_set_mark fresh GateSet.zeroed 7 =
      .ok { bits := [128, fresh 1 % 2 ^ 64, fresh 2 % 2 ^ 64, fresh 3 % 2 ^ 64, fresh 4 % 2 ^ 64,
                     fresh 5 % 2 ^ 64, fresh 6 % 2 ^ 64, fresh 7 % 2 ^ 64]
            block_len := 1, block_cap := 8 } := by
  simp [gate_set_mark, gate_set_grow, GateSet.zeroed, realloc, memset0, shl1, load, store,
    bind, Except.bind, pure, Except.pure, List.range, List.range.loop]

/-- The first circuit_port_new on a new circuit: one port byte, zeroed, and one
subscriber record, of which a single byte is zeroed, so that it stays indeterminate. -/
theorem port_new_first (junk : Junk) :
    circuit_port_new junk circuit_new =
      .ok (0, { circuit_new with
                  cap_ports := 8, ports := [0], subs := [junk.subs 0], len_ports := 1 }) := by
  simp [circuit_port_new, int_overflow, circuit_new, realloc_array, zero_from, memset_subs,
    List.range, List.range.loop]

/-- The second circuit_port_new: no growth, the arrays stay at one element. -/
theorem port_new_second (junk junk1 : Junk) :
    circuit_port_new junk1
        { circuit_new with cap_ports := 8, ports := [0], subs := [junk.subs 0], len_ports := 1 } =
      .ok (1, { circuit_new with
                  cap_ports := 8, ports := [0], subs := [junk.subs 0], len_ports := 2 }) := by
  simp [circuit_port_new, int_overflow, circuit_new]

/-- A returning circuit_update leaves the dirty set empty. -/
theorem circuit_update_ok_empty (env : Env) (n : Nat) (c c1 : Circuit)
    (h : circuit_update env n c = .ok c1) : gate_set_empty c1.dirty = true := by
  induction n generalizing c with
  | zero =>
    unfold circuit_update at h
    split at h
    · cases h; assumption
    · cases h
  | succ n ih =>
    unfold circuit_update at h
    split at h
    · cases h; assumption
    · split at h
      · cases h
      · split at h
        · cases h
        · exact ih _ h

/-- After the growth step the block index of the id lies below block_cap. -/
theorem gate_set_grow_cap (fresh : Nat → Nat) (set s0 : GateSet) (i : Int)
    (h : gate_set_grow fresh set i = .ok s0) : i < s0.block_cap := by
  unfold gate_set_grow at h
  simp only [] at h
  split_ifs at h <;> cases h <;> first | omega | (simp only []; omega)

/-- The shape of a returning gate_set_mark. -/
theorem gate_set_mark_ok (fresh : Nat → Nat) (set s1 : GateSet) (id : Int)
    (h : gate_set_mark fresh set id = .ok s1) :
    ∃ s0 m b, gate_set_grow fresh set (id / 64) = .ok s0 ∧ shl1 (id % 64) = .ok m ∧
      s0.bits[(id / 64).toNat]? = some b ∧ 0 ≤ id / 64 ∧ (id / 64).toNat < s0.bits.length ∧
      s1 = { bits := s0.bits.set (id / 64).toNat (b ||| m)
             block_len := if id / 64 ≥ s0.block_len then id / 64 + 1 else s0.block_len
             block_cap := s0.block_cap } := by
  unfold gate_set_mark at h
  cases hg : gate_set_grow fresh set (id / 64) with
  | error f => rw [hg] at h; cases h
  | ok s0 =>
    cases hm : shl1 (id % 64) with
    | error f => rw [hg, hm] at h; cases h
    | ok m =>
      cases hb : load s0.bits (id / 64) with
      | error f => simp only [hg, hm, hb, bind, Except.bind] at h; cases h
      | ok b =>
        have hi := load_ok_nonneg _ _ _ hb
        cases hs : store s0.bits (id / 64) (b ||| m) with
        | error f => simp only [hg, hm, hb, hs, bind, Except.bind] at h; cases h
        | ok bits =>
          simp only [hg, hm, hb, hs, bind, Except.bind, pure, Except.pure] at h
          cases h
          unfold store at hs
          split at hs
          · rename_i hlen
            cases hs
            unfold load at hb
            rw [if_neg (by omega)] at hb
            cases hget : s0.bits[(id / 64).toNat]? with
            | none => simp only [hget] at hb; cases hb
            | some b0 =>
              simp only [hget] at hb
              cases hb
              exact ⟨s0, m, b, rfl, rfl, hget, hi, hlen.2, rfl⟩
          · cases hs

/-- Element j of a list transformed element by element with its index. -/
theorem zipWith_range_getElem? {α β : Type} (f : Nat → α → β) (l : List α) (j : Nat) :
    (List.zipWith f (List.range l.length) l)[j]? = l[j]?.map (f j) := by
  rw [List.getElem?_zipWith]
  by_cases h : j < l.length
  · rw [List.getElem?_range h, List.getElem?_eq_getElem h]
    rfl
  · rw [List.getElem?_eq_none (by omega : l.length ≤ j)]
    cases (List.range l.length)[j]? <;> rfl

/-- Element j of a reallocated array. -/
theorem realloc_array_getElem? {α : Type} (fresh : Nat → α) (mem : List α) (n j : Nat) :
    (realloc_array fresh mem n)[j]? =
      if j < n then some (match mem[j]? with | some a => a | none => fresh j) else none := by
  unfold realloc_array
  rw [List.getElem?_map]
  by_cases h : j < n
  · rw [List.getElem?_range h, if_pos h]
    rfl
  · rw [List.getElem?_eq_none (by simp; omega), if_neg h]
    rfl

/-- A reallocated array has the length asked for. -/
theorem realloc_array_length {α : Type} (fresh : Nat → α) (mem : List α) (n : Nat) :
    (realloc_array fresh mem n).length = n := by
  simp [realloc_array]

/-- Zeroing bytes keeps the length of the array. -/
theorem zero_from_length (ports : List Nat) (start : Nat) :
    (zero_from ports start).length = ports.length := by
  simp [zero_from]

/-- Growing the port bytes from their full length keeps every old byte and makes
every byte added read 0. -/
theorem grown_ports_getD (fresh : Nat → Nat) (ports : List Nat) (n j : Nat)
    (hn : ports.length ≤ n) :
    (zero_from (realloc_array fresh ports n) ports.length).getD j 0 = ports.getD j 0 := by
  rw [List.getD_eq_getElem?_getD, List.getD_eq_getElem?_getD]
  unfold zero_from
  rw [zipWith_range_getElem?, realloc_array_getElem?]
  by_cases hj : j < ports.length
  · rw [if_pos (by omega), List.getElem?_eq_getElem hj]
    simp [hj]
  · rw [List.getElem?_eq_none (by omega : ports.length ≤ j)]
    by_cases hjn : j < n
    · rw [if_pos hjn]
      simp [Nat.le_of_not_lt hj]
    · rw [if_neg hjn]
      rfl

/-- The overflow test in terms of the bounds of int. -/
theorem int_overflow_iff (x : Int) :
    int_overflow x = true ↔ (x < -2147483648 ∨ 2147483647 < x) := by
  simp [int_overflow]

/-- What circuit_port_new does on a circuit whose port array is well-formed, when
its int arithmetic stays in range: it returns len_ports, raises len_ports by one,
keeps the port array well-formed and every bit of the port bytes reads as before
(bytes added read 0). Gates, dirty set and callback record are untouched. -/
theorem circuit_port_new_spec (junk : Junk) (c : Circuit) (h : c.ports_ok)
    (hno : ¬ ((c.len_ports ≥ c.cap_ports ∧ int_overflow (c.cap_ports * 2) = true) ∨
      int_overflow (c.len_ports + 1) = true)) :
    ∃ c1, circuit_port_new junk c = .ok (c.len_ports, c1) ∧
      c1.len_ports = c.len_ports + 1 ∧ c1.ports_ok ∧
      (∀ j : Nat, c1.ports.getD j 0 = c.ports.getD j 0) ∧
      c1.gates = c.gates ∧ c1.len_gates = c.len_gates ∧ c1.cap_gates = c.cap_gates ∧
      c1.dirty = c.dirty ∧ c1.calls = c.calls := by
  obtain ⟨h0, h1, h2, h3⟩ := h
  by_cases hg : c.len_ports ≥ c.cap_ports
  · -- growth: len_ports = cap_ports = 8 * length
    have hlen : c.len_ports = 8 * (c.ports.length : Int) := by omega
    have hx8len : (c.len_ports / 8).toNat = c.ports.length := by omega
    unfold circuit_port_new
    rw [if_neg hno, if_pos hg]
    simp only []
    rw [if_neg (by split_ifs <;> omega)]
    refine ⟨_, rfl, rfl, ?_, ?_, rfl, rfl, rfl, rfl, rfl⟩
    · refine ⟨by simp only []; omega, by simp only []; split_ifs <;> omega, ?_, ?_⟩
      · simp only [zero_from_length, realloc_array_length]
        split_ifs <;> omega
      · intro i hi
        simp only [] at hi ⊢
        rw [hx8len, grown_ports_getD _ _ _ _ (by split_ifs <;> omega)]
        exact h3 i (by omega)
    · intro j
      simp only []
      rw [hx8len, grown_ports_getD _ _ _ _ (by split_ifs <;> omega)]
  · unfold circuit_port_new
    rw [if_neg hno, if_neg hg]
    refine ⟨_, rfl, rfl, ?_, fun _ => rfl, rfl, rfl, rfl, rfl, rfl⟩
    refine ⟨by simp only []; omega, by simp only []; omega, h2, ?_⟩
    intro i hi
    simp only [] at hi
    exact h3 i (by omega)

/-- On a well-formed port array, circuit_port_get of an index in 0 .. len_ports - 1
returns the bit of the byte array at that index. -/
theorem circuit_port_get_allocated (c : Circuit) (q : Int) (h1 : c.len_ports ≤ c.cap_ports)
    (h2 : c.cap_ports = 8 * (c.ports.length : Int)) (hq0 : 0 ≤ q) (hq : q < c.len_ports) :
    circuit_port_get c q =
      .ok ((c.ports.getD (q.toNat / 8) 0 / 2 ^ (q.toNat % 8) % 2 : Nat) : Int) := by
  have hlt : (q / 8).toNat < c.ports.length := by omega
  have e1 : (q / 8).toNat = q.toNat / 8 := by omega
  have e2 : (q % 8).toNat = q.toNat % 8 := by omega
  rw [circuit_port_get_of c q (c.ports.getD (q.toNat / 8) 0) hq0 hq
    (by rw [e1, List.getD_eq_getElem?_getD, List.getElem?_eq_getElem (by omega)]; rfl), e2]

/-- A returning notification changes nothing but the dirty set. -/
theorem circuit_port_notify_same (env : Env) (c c1 : Circuit) (id : Int)
    (h : circuit_port_notify env c id = .ok c1) : ∃ d, c1 = { c with dirty := d } := by
  unfold circuit_port_notify at h
  split at h
  · cases h
  · rename_i set _
    unfold FOR_EACH_GATE at h
    split at h
    · cases h
    · rename_i it _
      refine for_each_loop_inv (fun x => ∃ d, x = { c with dirty := d })
        (circuit_gate_mark_dirty env) ?_ env.rounds it c c1 ⟨c.dirty, rfl⟩ h
      intro s id s1 hs hm
      obtain ⟨d, rfl⟩ := hs
      unfold circuit_gate_mark_dirty at hm
      split at hm
      · cases hm
        exact ⟨_, rfl⟩
      · cases hm

/-- A returning circuit_port_set keeps both representation invariants. -/
theorem circuit_port_set_inv (env : Env) (c c1 : Circuit) (id value : Int)
    (h : circuit_port_set env c id value = .ok c1) (hp : c.ports_ok) (hg : c.gates_ok) :
    c1.ports_ok ∧ c1.gates_ok := by
  obtain ⟨b, h0, h1, hb, hports, hlen⟩ := circuit_port_set_ok env c c1 id value h
  have hsame : c1.cap_ports = c.cap_ports ∧ c1.gates = c.gates ∧ c1.len_gates = c.len_gates ∧
      c1.cap_gates = c.cap_gates := by
    unfold circuit_port_set at h
    split at h
    · cases h
    · simp only [] at h
      split at h
      · cases h
      · obtain ⟨d, rfl⟩ := circuit_port_notify_same _ _ _ _ h
        exact ⟨rfl, rfl, rfl, rfl⟩
  obtain ⟨e1, e2, e3, e4⟩ := hsame
  obtain ⟨p0, p1, p2, p3⟩ := hp
  have hk : (id / 8).toNat < c.ports.length := by
    by_contra hcon
    rw [List.getElem?_eq_none (by omega)] at hb
    cases hb
  constructor
  · refine ⟨by omega, by omega, by rw [e1, hports, List.length_set]; exact p2, ?_⟩
    intro i hi
    rw [hports, List.getD_eq_getElem?_getD]
    by_cases hsame : i / 8 = (id / 8).toNat
    · rw [hsame, List.getElem?_set_self hk]
      simp only [Option.getD_some]
      have hv : (value % 2).toNat < 2 := by omega
      rw [byte_write_bit b (id % 8).toNat (value % 2).toNat (i % 8) (by omega) (by omega) hv]
      have hne : i % 8 ≠ (id % 8).toNat := by omega
      rw [if_neg hne]
      have := p3 i (by omega)
      rw [List.getD_eq_getElem?_getD, hsame, hb] at this
      exact this
    · rw [List.getElem?_set_ne (fun e => hsame e.symm), ← List.getD_eq_getElem?_getD]
      exact p3 i (by omega)
  · unfold Circuit.gates_ok at hg ⊢
    rw [e2, e3, e4]
    exact hg

/-- A returning circuit_update_gate keeps both representation invariants. -/
theorem circuit_update_gate_inv (env : Env) (c c1 : Circuit) (gate : Int)
    (h : circuit_update_gate env c gate = .ok c1) (hp : c.ports_ok) (hg : c.gates_ok) :
    c1.ports_ok ∧ c1.gates_ok := by
  unfold circuit_update_gate at h
  split at h
  · cases h
  · split at h
    · cases h
    · split at h
      · obtain ⟨v, _, h2⟩ := bind_run_ok _ _ _ h
        cases h2
        exact ⟨hp, hg⟩
      · exact circuit_port_set_inv _ _ _ _ _ h hp hg
      · obtain ⟨v, _, h2⟩ := bind_run_ok _ _ _ h
        exact circuit_port_set_inv _ _ _ _ _ h2 hp hg
      · obtain ⟨v, _, h2⟩ := bind_run_ok _ _ _ h
        exact circuit_port_set_inv _ _ _ _ _ h2 hp hg
      · obtain ⟨v, _, h2⟩ := bind_run_ok _ _ _ h
        obtain ⟨w, _, h3⟩ := bind_run_ok _ _ _ h2
        exact circuit_port_set_inv _ _ _ _ _ h3 hp hg
      · obtain ⟨v, _, h2⟩ := bind_run_ok _ _ _ h
        obtain ⟨w, _, h3⟩ := bind_run_ok _ _ _ h2
        exact circuit_port_set_inv _ _ _ _ _ h3 hp hg
      · obtain ⟨v, _, h2⟩ := bind_run_ok _ _ _ h
        obtain ⟨w, _, h3⟩ := bind_run_ok _ _ _ h2
        exact circuit_port_set_inv _ _ _ _ _ h3 hp hg
      · cases h

/-- A returning circuit_update keeps both representation invariants. -/
theorem circuit_update_inv (env : Env) (n : Nat) (c c1 : Circuit)
    (h : circuit_update env n c = .ok c1) (hp : c.ports_ok) (hg : c.gates_ok) :
    c1.ports_ok ∧ c1.gates_ok := by
  induction n generalizing c with
  | zero =>
    unfold circuit_update at h
    split at h
    · cases h; exact ⟨hp, hg⟩
    · cases h
  | succ n ih =>
    unfold circuit_update at h
    split at h
    · cases h; exact ⟨hp, hg⟩
    · split at h
      · cases h
      · split at h
        · cases h
        · rename_i c2 hu
          obtain ⟨hp2, hg2⟩ := circuit_update_gate_inv _ _ _ _ hu hp hg
          exact ih _ h hp2 hg2

/-- What circuit_gate_new does on a circuit whose gate array is well-formed, when
its int arithmetic stays in range: it returns len_gates, raises len_gates by one,
writes the kind into the new record, keeps every record allocated before and keeps
the gate array well-formed. Ports, subscriber sets, dirty set and callback record
are untouched. -/
theorem circuit_gate_new_spec (junk : Junk) (c : Circuit) (kind : GateKind) (h : c.gates_ok)
    (hno : ¬ ((c.len_gates ≥ c.cap_gates ∧ int_overflow (c.cap_gates * 2) = true) ∨
      int_overflow (c.len_gates + 1) = true)) :
    ∃ c1, circuit_gate_new junk c kind = .ok (c.len_gates, c1) ∧
      c1.len_gates = c.len_gates + 1 ∧ c1.gates_ok ∧
      (∃ g, c1.gates[c.len_gates.toNat]? = some g ∧ g.kind = kind.tag) ∧
      (∀ i : Nat, (i : Int) < c.len_gates → c1.gates[i]? = c.gates[i]?) ∧
      c1.ports = c.ports ∧ c1.len_ports = c.len_ports ∧ c1.cap_ports = c.cap_ports ∧
      c1.subs = c.subs ∧ c1.dirty = c.dirty ∧ c1.calls = c.calls := by
  obtain ⟨h0, h1, h2⟩ := h
  by_cases hg : c.len_gates ≥ c.cap_gates
  · have hlen : c.len_gates = (c.gates.length : Int) := by omega
    have hL : c.len_gates.toNat = c.gates.length := by omega
    have hcap : 0 < (if c.cap_gates = 0 then (8 : Int) else c.cap_gates * 2) := by
      split_ifs <;> omega
    have hlt : c.gates.length < (if c.cap_gates = 0 then (8 : Int) else c.cap_gates * 2).toNat := by
      split_ifs <;> omega
    have hget : (realloc_array junk.gates c.gates
        (if c.cap_gates = 0 then (8 : Int) else c.cap_gates * 2).toNat)[c.gates.length]? =
        some (junk.gates c.gates.length) := by
      rw [realloc_array_getElem?, if_pos hlt, List.getElem?_eq_none (le_refl _)]
    unfold circuit_gate_new
    simp only [if_neg hno]
    simp only [hg, if_true, if_neg (not_le.mpr hcap)]
    simp only [load, store, bind, Except.bind, if_neg (not_lt.mpr h0), hL, hget, h0,
      realloc_array_length, hlt, and_self, if_true]
    refine ⟨_, rfl, rfl, ?_, ?_, ?_, rfl, rfl, rfl, rfl, rfl, rfl⟩
    · refine ⟨by simp only []; omega, by simp only []; omega, ?_⟩
      simp only [List.length_set, realloc_array_length]
      omega
    · refine ⟨{ junk.gates c.gates.length with kind := kind.tag }, ?_, rfl⟩
      simp only []
      rw [List.getElem?_set_self (by rw [realloc_array_length]; exact hlt)]
    · intro i hi
      have hi2 : i < c.gates.length := by omega
      simp only []
      rw [List.getElem?_set_ne (by omega), realloc_array_getElem?, if_pos (by omega),
        List.getElem?_eq_getElem hi2]
  · have hL : c.len_gates.toNat < c.gates.length := by omega
    have hcap : ¬ c.cap_gates ≤ 0 := by omega
    unfold circuit_gate_new
    simp only [if_neg hno]
    simp only [hg, if_false, hcap]
    simp only [load, store, bind, Except.bind, if_neg (not_lt.mpr h0),
      List.getElem?_eq_getElem hL, h0, hL, and_self, if_true]
    refine ⟨_, rfl, rfl, ?_, ?_, ?_, rfl, rfl, rfl, rfl, rfl, rfl⟩
    · refine ⟨by simp only []; omega, by simp only []; omega, ?_⟩
      simp only [List.length_set]
      omega
    · refine ⟨{ c.gates[c.len_gates.toNat] with kind := kind.tag }, ?_, rfl⟩
      simp only []
      rw [List.getElem?_set_self hL]
    · intro i hi
      simp only []
      rw [List.getElem?_set_ne (by omega)]

/-- Both representation invariants hold in every circuit reached from circuit_new. -/
theorem reachable_inv (c : Circuit) (h : Reachable c) : c.ports_ok ∧ c.gates_ok := by
  induction h with
  | new =>
    refine ⟨⟨le_refl _, le_refl _, rfl, ?_⟩, ⟨le_refl _, le_refl _, rfl⟩⟩
    intro i _
    simp [circuit_new]
  | port_new junk c c1 id _ hcall ih =>
    have hno : ¬ ((c.len_ports ≥ c.cap_ports ∧ int_overflow (c.cap_ports * 2) = true) ∨
        int_overflow (c.len_ports + 1) = true) := by
      intro hov
      unfold circuit_port_new at hcall
      rw [if_pos hov] at hcall
      cases hcall
    obtain ⟨c2, hnew, _, hok, _, e1, e2, e3, _⟩ := circuit_port_new_spec junk c ih.1 hno
    rw [hnew] at hcall
    cases hcall
    refine ⟨hok, ?_⟩
    unfold Circuit.gates_ok
    rw [e1, e2, e3]
    exact ih.2
  | gate_new junk c c1 kind id _ hcall ih =>
    have hno : ¬ ((c.len_gates ≥ c.cap_gates ∧ int_overflow (c.cap_gates * 2) = true) ∨
        int_overflow (c.len_gates + 1) = true) := by
      intro hov
      unfold circuit_gate_new at hcall
      simp only [if_pos hov] at hcall
      cases hcall
    obtain ⟨c2, hnew, _, hok, _, _, e1, e2, e3, _⟩ := circuit_gate_new_spec junk c kind ih.2 hno
    rw [hnew] at hcall
    cases hcall
    refine ⟨?_, hok⟩
    unfold Circuit.ports_ok
    rw [e1, e2, e3]
    exact ih.1
  | assign c c1 i g _ hcall ih =>
    unfold gate_assign at hcall
    split at hcall
    · cases hcall
    · rename_i gates hs
      cases hcall
      unfold store at hs
      split at hs
      · cases hs
        refine ⟨ih.1, ?_⟩
        obtain ⟨g0, g1, g2⟩ := ih.2
        exact ⟨g0, g1, by simp only [List.length_set]; exact g2⟩
      · cases hs
  | subscribe fresh c c1 gate port _ hcall ih =>
    unfold circuit_gate_subscribe at hcall
    split at hcall
    · cases hcall
    · cases hcall
      exact ih
  | mark_dirty env c c1 gate _ hcall ih =>
    unfold circuit_gate_mark_dirty at hcall
    split at hcall
    · cases hcall
      exact ih
    · cases hcall
  | port_set env c c1 id value _ hcall ih =>
    exact circuit_port_set_inv env c c1 id value hcall ih.1 ih.2
  | update_gate env c c1 gate _ hcall ih =>
    exact circuit_update_gate_inv env c c1 gate hcall ih.1 ih.2
  | update env n c c1 _ hcall ih =>
    exact circuit_update_inv env n c c1 hcall ih.1 ih.2

/-- A circuit_port_new below the capacity only raises len_ports. -/
theorem circuit_port_new_no_growth (junk : Junk) (c : Circuit) (h : c.len_ports < c.cap_ports)
    (h0 : 0 ≤ c.len_ports) (h1 : c.len_ports < 2147483647) :
    circuit_port_new junk c = .ok (c.len_ports, { c with len_ports := c.len_ports + 1 }) := by
  unfold circuit_port_new
  rw [if_neg (by simp only [int_overflow_iff]; omega), if_neg (by omega)]

/-- The assert of circuit_port_get: an index at or above len_ports aborts, with the
circuit as it was. -/
theorem circuit_port_get_above (c : Circuit) (id : Int) (h : c.len_ports ≤ id) :
    circuit_port_get c id = .error (.assertion, c) := by
  unfold circuit_port_get
  rw [if_pos (by omega)]

/-- The assert of circuit_port_set: an index at or above len_ports aborts, with the
circuit as it was. -/
theorem circuit_port_set_above (env : Env) (c : Circuit) (id value : Int)
    (h : c.len_ports ≤ id) : circuit_port_set env c id value = .error (.assertion, c) := by
  unfold circuit_port_set
  rw [if_pos (by omega)]

/-- A negative index that is below len_ports passes the assert of circuit_port_get
and reads ports[id >> 3] in front of the array: undefined behaviour. -/
theorem circuit_port_get_negative (c : Circuit) (id : Int) (h : id < 0)
    (hl : id < c.len_ports) : circuit_port_get c id = .error (.undefined, c) := by
  unfold circuit_port_get load
  rw [if_neg (by omega), if_pos (by omega)]

/-- The assert of circuit_update_gate: an index at or above len_gates aborts, with
the circuit as it was. -/
theorem circuit_update_gate_above (env : Env) (c : Circuit) (gate : Int)
    (h : c.len_gates ≤ gate) : circuit_update_gate env c gate = .error (.assertion, c) := by
  unfold circuit_update_gate
  rw [if_pos (by omega)]

/-- The default case of circuit_update_gate: a kind tag outside the enum aborts,
with the circuit as it was. -/
theorem circuit_update_gate_bad_kind (env : Env) (c : Circuit) (gate : Int) (g : Gate)
    (hl : gate < c.len_gates) (hg : load c.gates gate = .ok g)
    (hk : GateKind.ofTag g.kind = none) :
    circuit_update_gate env c gate = .error (.assertion, c) := by
  unfold circuit_update_gate
  rw [if_neg (by omega)]
  simp only [hg, hk]

/-- A negative index that is below len_gates passes the assert of
circuit_update_gate and reads gates[gate] in front of the array: undefined behaviour. -/
theorem circuit_update_gate_negative (env : Env) (c : Circuit) (gate : Int) (h : gate < 0)
    (hl : gate < c.len_gates) : circuit_update_gate env c gate = .error (.undefined, c) := by
  unfold circuit_update_gate load
  rw [if_neg (by omega), if_pos (by omega)]

/-- Unmarking an id of 31 or more that lies in a tracked block is undefined
behaviour: the mask is computed from 1 << id, with the whole id as shift count. -/
theorem gate_set_unmark_high_id (set : GateSet) (id : Int) (h : 31 ≤ id)
    (hb : id / 64 < set.block_len) : gate_set_unmark set id = .error .undefined := by
  unfold gate_set_unmark
  rw [if_neg (by omega)]
  simp only [bind, Except.bind, shl1_high _ h]

/-- Reallocating an array of equal records on storage that holds the same record
gives an array of equal records. -/
theorem realloc_array_replicate {α : Type} (a : α) (m n : Nat) :
    realloc_array (fun _ => a) (List.replicate m a) n = List.replicate n a := by
  apply List.ext_getElem?
  intro j
  rw [realloc_array_getElem?, List.getElem?_replicate, List.getElem?_replicate]
  split_ifs <;> rfl

/-- Zeroing bytes of an array of zero bytes changes nothing. -/
theorem zero_from_replicate (n start : Nat) :
    zero_from (List.replicate n 0) start = List.replicate n 0 := by
  apply List.ext_getElem?
  intro j
  unfold zero_from
  rw [zipWith_range_getElem?, List.getElem?_replicate]
  split_ifs <;> simp

/-- Zeroing bytes of an array of zeroed subscriber records changes nothing. -/
theorem memset_subs_replicate (n start cnt : Nat) :
    memset_subs (List.replicate n GateSet.zeroed) start cnt = List.replicate n GateSet.zeroed := by
  apply List.ext_getElem?
  intro j
  unfold memset_subs
  rw [zipWith_range_getElem?, List.getElem?_replicate]
  split_ifs <;> simp

/-- Writing the record that an array of equal records holds changes nothing. -/
theorem replicate_set_self {α : Type} (a : α) (m i : Nat) :
    (List.replicate m a).set i a = List.replicate m a := by
  apply List.ext_getElem?
  intro j
  rw [List.getElem?_set]
  split_ifs with h1 h2
  · subst h1
    rw [List.getElem?_replicate, if_pos (by simpa using h2)]
  · subst h1
    rw [List.getElem?_replicate, if_neg (by simpa using h2)]
  · rfl

/-- A circuit_port_new that grows the storage of zero_ports doubles it, below 2^27
bytes. -/
theorem zero_ports_grow (m : Nat) (h0 : 0 < m) (hm : m < 2 ^ 27) :
    circuit_port_new Junk.zero (zero_ports m (8 * (m : Int))) =
      .ok (8 * (m : Int), zero_ports (2 * m) (8 * (m : Int) + 1)) := by
  unfold circuit_port_new zero_ports
  simp only [circuit_new]
  rw [if_neg (by simp only [int_overflow_iff]; omega), if_pos (le_refl _)]
  rw [if_neg (by omega), if_neg (by omega)]
  have e1 : (8 * (m : Int) * 2 / 8).toNat = 2 * m := by omega
  have e2 : (8 * (m : Int) / 8).toNat = m := by omega
  have e3 : (8 * (m : Int) * 2 / 8 - 8 * (m : Int) / 8).toNat = m := by omega
  have ej : (fun i => Junk.zero.ports i % 256) = fun _ => 0 := rfl
  have es : Junk.zero.subs = fun _ => GateSet.zeroed := rfl
  rw [e1, e2, e3, ej, es, realloc_array_replicate, realloc_array_replicate, zero_from_replicate,
    memset_subs_replicate]
  congr 3
  push_cast
  ring

/-- A circuit_port_new below the capacity of zero_ports raises len_ports. -/
theorem zero_ports_step (m : Nat) (n : Int) (h0 : 0 ≤ n) (h : n < 8 * (m : Int))
    (hb : n < 2147483647) :
    circuit_port_new Junk.zero (zero_ports m n) = .ok (n, zero_ports m (n + 1)) := by
  have := circuit_port_new_no_growth Junk.zero (zero_ports m n) h h0 hb
  rw [this]
  rfl

/-- Up to 2^30 calls of circuit_port_new on a new circuit all return: n + 1 calls
leave zero_ports m (n + 1), where the number m of bytes is the power of two with
4 * m < n + 1 <= 8 * m (or m = 1). -/
theorem reachable_zero_ports (n : Nat) (hn : n + 1 ≤ 2 ^ 30) :
    ∃ m j, Reachable (zero_ports m ((n : Int) + 1)) ∧ m = 2 ^ j ∧ n + 1 ≤ 8 * m ∧
      (8 * m < 2 * (n + 1) ∨ m = 1) := by
  induction n with
  | zero =>
    refine ⟨1, 0, ?_, rfl, by omega, Or.inr rfl⟩
    have h1 := Reachable.port_new Junk.zero _ _ 0 Reachable.new (port_new_first Junk.zero)
    exact h1
  | succ n ih =>
    obtain ⟨m, j, hr, hj, h1, h2⟩ := ih (by omega)
    by_cases hlt : n + 1 < 8 * m
    · refine ⟨m, j, ?_, hj, by omega, by omega⟩
      have hs := zero_ports_step m ((n : Int) + 1) (by omega) (by omega) (by omega)
      have := Reachable.port_new Junk.zero _ _ _ hr hs
      push_cast
      exact this
    · have he : n + 1 = 8 * m := by omega
      refine ⟨2 * m, j + 1, ?_, by rw [hj, pow_succ]; ring, by omega, by omega⟩
      have hg := zero_ports_grow m (by omega) (by omega)
      have e : (8 * (m : Int)) = (n : Int) + 1 := by omega
      rw [e] at hg
      have := Reachable.port_new Junk.zero _ _ _ hr hg
      push_cast
      exact this

/-- The circuit with 2^30 ports in 2^27 bytes, all allocated, is reached from
circuit_new by 2^30 calls of circuit_port_new. -/
theorem reachable_zero_ports_full : Reachable (zero_ports (2 ^ 27) (2 ^ 30)) := by
  obtain ⟨m, j, hr, hj, h1, h2⟩ := reachable_zero_ports (2 ^ 30 - 1) (by norm_num)
  have hm : m = 2 ^ 27 := by
    have hlo : 2 ^ 27 ≤ m := by omega
    have hhi : m < 2 ^ 28 := by omega
    rw [hj] at hlo hhi
    have a1 : 27 ≤ j := (Nat.pow_le_pow_iff_right (by norm_num)).mp hlo
    have a2 : j < 28 := (Nat.pow_lt_pow_iff_right (by norm_num)).mp hhi
    have : j = 27 := by omega
    rw [hj, this]
  have e : (((2 ^ 30 - 1 : Nat) : Int) + 1) = 2 ^ 30 := by norm_num
  rw [e, hm] at hr
  exact hr

/-- A circuit_port_new that has to grow a capacity of 2^30 or more is undefined
behaviour: cap_ports * 2 overflows int. -/
theorem circuit_port_new_overflow (junk : Junk) (c : Circuit) (h : c.len_ports ≥ c.cap_ports)
    (hc : 2 ^ 30 ≤ c.cap_ports) : circuit_port_new junk c = .error (.undefined, c) := by
  unfold circuit_port_new
  rw [if_pos]
  left
  refine ⟨h, ?_⟩
  rw [int_overflow_iff]
  omega

/-- The call of circuit_port_new on the circuit with 2^30 ports, all allocated. -/
theorem zero_ports_overflow :
    circuit_port_new Junk.zero (zero_ports (2 ^ 27) (2 ^ 30)) =
      .error (.undefined, zero_ports (2 ^ 27) (2 ^ 30)) :=
  circuit_port_new_overflow _ _
    (by show (2 ^ 30 : Int) ≥ 8 * ((2 ^ 27 : Nat) : Int); norm_num)
    (by show (2 ^ 30 : Int) ≤ 8 * ((2 ^ 27 : Nat) : Int); norm_num)

/-- A circuit_gate_new(c, GateKind_In) below the capacity of zero_gates raises
len_gates. -/
theorem zero_gates_step (m : Nat) (n : Int) (h0 : 0 ≤ n) (h : n < (m : Int))
    (hb : n < 2147483647) :
    circuit_gate_new Junk.zero (zero_gates m n) .In = .ok (n, zero_gates m (n + 1)) := by
  have hno : ¬ ((n ≥ (m : Int) ∧ int_overflow ((m : Int) * 2) = true) ∨
      int_overflow (n + 1) = true) := by
    simp only [int_overflow_iff]; omega
  have hg : ¬ n ≥ (m : Int) := by omega
  have hcap : ¬ (m : Int) ≤ 0 := by omega
  have hL : n.toNat < m := by omega
  unfold circuit_gate_new zero_gates
  simp only [circuit_new, if_neg hno]
  simp only [hg, if_false, hcap]
  simp only [load, store, bind, Except.bind, if_neg (not_lt.mpr h0), List.getElem?_replicate,
    hL, if_true, h0, List.length_replicate, and_self]
  have e : ({ Gate.zero with kind := GateKind.In.tag } : Gate) = Gate.zero := rfl
  rw [e, replicate_set_self]

/-- A circuit_gate_new(c, GateKind_In) that grows the storage of zero_gates doubles
it, below 2^30 records. -/
theorem zero_gates_grow (m : Nat) (h0 : 0 < m) (hm : m < 2 ^ 30) :
    circuit_gate_new Junk.zero (zero_gates m (m : Int)) .In =
      .ok ((m : Int), zero_gates (2 * m) ((m : Int) + 1)) := by
  have hno : ¬ (((m : Int) ≥ (m : Int) ∧ int_overflow ((m : Int) * 2) = true) ∨
      int_overflow ((m : Int) + 1) = true) := by
    simp only [int_overflow_iff]; omega
  have hg : (m : Int) ≥ (m : Int) := le_refl _
  have hm0 : ¬ (m : Int) = 0 := by omega
  have hcap : ¬ (m : Int) * 2 ≤ 0 := by omega
  have e1 : ((m : Int) * 2).toNat = 2 * m := by omega
  have hL : m < 2 * m := by omega
  have hM : 0 ≤ (m : Int) := by omega
  have es : Junk.zero.gates = fun _ => Gate.zero := rfl
  unfold circuit_gate_new zero_gates
  simp only [circuit_new, if_neg hno]
  simp only [hg, if_true, hm0, if_false, hcap]
  simp only [e1, es, realloc_array_replicate, load, store, bind, Except.bind,
    if_neg (not_lt.mpr hM), List.getElem?_replicate, Int.toNat_ofNat, hL, if_true, hM,
    List.length_replicate, and_self]
  have e : ({ Gate.zero with kind := GateKind.In.tag } : Gate) = Gate.zero := rfl
  rw [e, replicate_set_self]
  congr 3
  push_cast
  ring

/-- The first circuit_gate_new(c, GateKind_In) on a new circuit. -/
theorem zero_gates_first :
    circuit_gate_new Junk.zero circuit_new .In = .ok (0, zero_gates 8 1) := by
  rfl

/-- Up to 2^30 calls of circuit_gate_new(c, GateKind_In) on a new circuit all
return: n + 1 calls leave zero_gates m (n + 1), where the capacity m is 8 times
the power of two with m / 2 < n + 1 <= m (or m = 8). -/
theorem reachable_zero_gates (n : Nat) (hn : n + 1 ≤ 2 ^ 30) :
    ∃ m j, Reachable (zero_gates m ((n : Int) + 1)) ∧ m = 8 * 2 ^ j ∧ n + 1 ≤ m ∧
      (m < 2 * (n + 1) ∨ m = 8) := by
  induction n with
  | zero =>
    exact ⟨8, 0, Reachable.gate_new Junk.zero _ _ .In 0 Reachable.new zero_gates_first, rfl,
      by omega, Or.inr rfl⟩
  | succ n ih =>
    obtain ⟨m, j, hr, hj, h1, h2⟩ := ih (by omega)
    by_cases hlt : n + 1 < m
    · refine ⟨m, j, ?_, hj, by omega, by omega⟩
      have hs := zero_gates_step m ((n : Int) + 1) (by omega) (by omega) (by omega)
      have := Reachable.gate_new Junk.zero _ _ _ _ hr hs
      push_cast
      exact this
    · have he : n + 1 = m := by omega
      refine ⟨2 * m, j + 1, ?_, by rw [hj, pow_succ]; ring, by omega, by omega⟩
      have hg := zero_gates_grow m (by omega) (by omega)
      have e : (m : Int) = (n : Int) + 1 := by omega
      rw [e] at hg
      have := Reachable.gate_new Junk.zero _ _ _ _ hr hg
      push_cast
      exact this

/-- The circuit with 2^30 gate records, all allocated, is reached from circuit_new
by 2^30 calls of circuit_gate_new(c, GateKind_In). -/
theorem reachable_zero_gates_full : Reachable (zero_gates (2 ^ 30) (2 ^ 30)) := by
  obtain ⟨m, j, hr, hj, h1, h2⟩ := reachable_zero_gates (2 ^ 30 - 1) (by norm_num)
  have hm : m = 2 ^ 30 := by
    have hlo : 2 ^ 27 ≤ 2 ^ j := by omega
    have hhi : 2 ^ j < 2 ^ 28 := by omega
    have a1 : 27 ≤ j := (Nat.pow_le_pow_iff_right (by norm_num)).mp hlo
    have a2 : j < 28 := (Nat.pow_lt_pow_iff_right (by norm_num)).mp hhi
    have : j = 27 := by omega
    rw [hj, this]
    norm_num
  have e : (((2 ^ 30 - 1 : Nat) : Int) + 1) = 2 ^ 30 := by norm_num
  rw [e, hm] at hr
  exact hr

/-- A circuit_gate_new that has to grow a capacity of 2^30 or more is undefined
behaviour: cap_gates * 2 overflows int. -/
theorem circuit_gate_new_overflow (junk : Junk) (c : Circuit) (kind : GateKind)
    (h : c.len_gates ≥ c.cap_gates) (hc : 2 ^ 30 ≤ c.cap_gates) :
    circuit_gate_new junk c kind = .error (.undefined, c) := by
  have hov : (c.len_gates ≥ c.cap_gates ∧ int_overflow (c.cap_gates * 2) = true) ∨
      int_overflow (c.len_gates + 1) = true := by
    left
    refine ⟨h, ?_⟩
    rw [int_overflow_iff]
    omega
  unfold circuit_gate_new
  simp only [if_pos hov]

/-- The call of circuit_gate_new on the circuit with 2^30 gates, all allocated. -/
theorem zero_gates_overflow (kind : GateKind) :
    circuit_gate_new Junk.zero (zero_gates (2 ^ 30) (2 ^ 30)) kind =
      .error (.undefined, zero_gates (2 ^ 30) (2 ^ 30)) :=
  circuit_gate_new_overflow _ _ _
    (by show (2 ^ 30 : Int) ≥ ((2 ^ 30 : Nat) : Int); norm_num)
    (by show (2 ^ 30 : Int) ≤ ((2 ^ 30 : Nat) : Int); norm_num)

/-- The port array of ports_full is well-formed. -/
theorem ports_full_ok : ports_full.ports_ok := by
  refine ⟨by decide, by decide, rfl, ?_⟩
  intro i hi
  have h8 : 8 ≤ i := by
    have : (8 : Int) ≤ (i : Int) := hi
    omega
  have : [165].getD (i / 8) 0 = 0 := by
    rw [List.getD_eq_default]
    simp only [List.length_singleton]
    omega
  show [165].getD (i / 8) 0 / 2 ^ (i % 8) % 2 = 0
  rw [this]
  simp

/-- The gate array of main_full is well-formed. -/
theorem main_full_ok (subs : List GateSet) : (main_full subs).gates_ok :=
  ⟨by show (0 : Int) ≤ 8; decide, by show (8 : Int) ≤ 8; decide, rfl⟩

/-- The circuit driven_port is reached from circuit_new: circuit_port_new,
circuit_gate_new(c, GateKind_In), the assignments output = 0 and value = 1, and
circuit_update_gate(c, 0), on storage that reads zero. -/
theorem reachable_driven_port : Reachable driven_port := by
  have h1 := Reachable.port_new Junk.zero _ _ 0 Reachable.new (port_new_first Junk.zero)
  have h2 := Reachable.gate_new Junk.zero _ _ .In 0 h1 (by rfl)
  have h3 := Reachable.assign _ _ 0
    { Gate.zero with kind := GateKind.In.tag, output := 0, value := 1 } h2 (by rfl)
  refine Reachable.update_gate ⟨fun _ => 0, stale_iter 0, 0⟩ _ _ 0 h3 ?_
  rfl

/-- The function gate_set_mark is gate_set_mark_with on the shift of C. -/
theorem gate_set_mark_eq_with (fresh : Nat → Nat) (set : GateSet) (id : Int) :
    gate_set_mark fresh set id = gate_set_mark_with shl1 fresh set id := rfl

/-- On the counts 0..30 the shift of the machine is the shift of C. -/
theorem shl1_machine_low (wide : Int → Nat) (n : Int) (h0 : 0 ≤ n) (h1 : n < 31) :
    shl1_machine wide n = shl1 n := by
  unfold shl1_machine shl1
  rw [if_pos ⟨h0, h1⟩, if_pos ⟨h0, h1⟩]

/-- For a shift count below 31, gate_set_mark on the shift of the machine is
gate_set_mark. -/
theorem gate_set_mark_machine_low (wide : Int → Nat) (fresh : Nat → Nat) (set : GateSet)
    (id : Int) (h : id % 64 < 31) :
    gate_set_mark_with (shl1_machine wide) fresh set id = gate_set_mark fresh set id := by
  unfold gate_set_mark_with gate_set_mark
  rw [shl1_machine_low wide (id % 64) (by omega) h]

/-- A reallocated block array has the length asked for. -/
theorem realloc_length (fresh : Nat → Nat) (bits : List Nat) (n : Nat) :
    (realloc fresh bits n).length = n := by
  simp [realloc]

/-- Zeroing bytes keeps the length of the block array. -/
theorem memset0_length (bits : List Nat) (n : Nat) : (memset0 bits n).length = bits.length := by
  simp [memset0]

/-- On a set whose capacity is the number of blocks of its storage, the growth step
of gate_set_mark returns for every block index that is not negative, and leaves
such a set, with the block index below the capacity. -/
theorem gate_set_grow_returns (fresh : Nat → Nat) (set : GateSet) (i : Int) (h0 : 0 ≤ i)
    (hw : set.block_cap = (set.bits.length : Int)) :
    ∃ s0, gate_set_grow fresh set i = .ok s0 ∧ s0.block_cap = (s0.bits.length : Int) ∧
      i < s0.block_cap := by
  unfold gate_set_grow
  by_cases hg : i ≥ set.block_cap
  · rw [if_pos hg]
    simp only []
    rw [if_neg (by split_ifs <;> omega)]
    refine ⟨_, rfl, ?_, ?_⟩
    · simp only [memset0_length, realloc_length]
      split_ifs <;> omega
    · simp only []
      split_ifs <;> omega
  · rw [if_neg hg]
    exact ⟨set, rfl, hw, by omega⟩

/-- On a set whose capacity is the number of blocks of its storage, gate_set_mark
returns for every id that is not negative, when the shift delivers a mask m: the
set returned is the grown set with the mask or-ed into the block of the id. -/
theorem gate_set_mark_with_returns (shl : Int → Except Fault Nat) (fresh : Nat → Nat)
    (set : GateSet) (id : Int) (m : Nat) (h0 : 0 ≤ id)
    (hw : set.block_cap = (set.bits.length : Int)) (hm : shl (id % 64) = .ok m) :
    ∃ s0 b, gate_set_grow fresh set (id / 64) = .ok s0 ∧
      s0.bits[(id / 64).toNat]? = some b ∧ (id / 64).toNat < s0.bits.length ∧
      id / 64 < s0.block_cap ∧
      gate_set_mark_with shl fresh set id =
        .ok { bits := s0.bits.set (id / 64).toNat (b ||| m)
              block_len := if id / 64 ≥ s0.block_len then id / 64 + 1 else s0.block_len
              block_cap := s0.block_cap } := by
  have hi : 0 ≤ id / 64 := by omega
  obtain ⟨s0, hg, hw0, hlt⟩ := gate_set_grow_returns fresh set (id / 64) hi hw
  have hlen : (id / 64).toNat < s0.bits.length := by omega
  refine ⟨s0, s0.bits[(id / 64).toNat], hg, List.getElem?_eq_getElem hlen, hlen, hlt, ?_⟩
  unfold gate_set_mark_with
  simp only [hg, hm, bind, Except.bind, pure, Except.pure, load, store, hi,
    if_neg (not_lt.mpr hi), List.getElem?_eq_getElem hlen, hlen, and_self, if_true]

/-- Marking again the id that has just been marked returns the same set: the
storage does not grow, or-ing the mask a second time changes no bit, and
block_len stays. -/
theorem gate_set_mark_with_again (shl : Int → Except Fault Nat) (fresh1 : Nat → Nat)
    (s0 : GateSet) (id : Int) (m b : Nat) (hi : 0 ≤ id / 64)
    (hlen : (id / 64).toNat < s0.bits.length) (hcap : id / 64 < s0.block_cap)
    (hm : shl (id % 64) = .ok m) :
    gate_set_mark_with shl fresh1
        { bits := s0.bits.set (id / 64).toNat (b ||| m)
          block_len := if id / 64 ≥ s0.block_len then id / 64 + 1 else s0.block_len
          block_cap := s0.block_cap } id =
      .ok { bits := s0.bits.set (id / 64).toNat (b ||| m)
            block_len := if id / 64 ≥ s0.block_len then id / 64 + 1 else s0.block_len
            block_cap := s0.block_cap } := by
  have hgrow : gate_set_grow fresh1
      { bits := s0.bits.set (id / 64).toNat (b ||| m)
        block_len := if id / 64 ≥ s0.block_len then id / 64 + 1 else s0.block_len
        block_cap := s0.block_cap } (id / 64) =
      .ok { bits := s0.bits.set (id / 64).toNat (b ||| m)
            block_len := if id / 64 ≥ s0.block_len then id / 64 + 1 else s0.block_len
            block_cap := s0.block_cap } := by
    unfold gate_set_grow
    rw [if_neg (by simp only []; omega)]
  unfold gate_set_mark_with
  simp only [hgrow, hm, bind, Except.bind, pure, Except.pure, load, store, hi,
    if_neg (not_lt.mpr hi), List.length_set, List.getElem?_set_self hlen, hlen, and_self,
    if_true, List.set_set, Nat.or_assoc, Nat.or_self]
  congr 2
  split_ifs <;> omega

/-!
## The claims, continued

The claims about the port bits and the truth tables hold for every call: the
write of a port (lines 204-205) precedes the notification of the port (line 206),
which is where a call can stop, so the theorems speak of endState, the state in
which the call ends, and cover the call that returns and the call that stops in
the notification alike. The claims about allocation hold below 2^30 ports or
gates; at 2^30 the doubling of the capacity overflows int, in a circuit that is
reached from circuit_new. The claim about a repeated drain holds for every
circuit whose dirty set gate_set_empty finds empty, which every circuit that
circuit_update returns is (circuit_update_ok_empty). The idempotence of
gate_set_mark holds for every id, on the machine-level reading of the shift.

The other theorems run the code on one concrete input, as above; the general
facts behind them are gate_set_unmark_high_id, circuit_port_get_negative and
circuit_update_gate_negative (a negative index passes the assert), and, for what
the asserts get right, circuit_port_get_above, circuit_port_set_above,
circuit_update_gate_above and circuit_update_gate_bad_kind.
-/

/-- The circuit of main with its two In gates marked dirty: circuit_update stops at
the assert of circuit_update_gate, in the state given. -/
theorem main_update (env : Env) (subs : List GateSet) (n : Nat) :
    (circuit_gate_mark_dirty env (main_circuit subs) 0 >>= fun c1 =>
      circuit_gate_mark_dirty env c1 1 >>= circuit_update env (n + 1)) =
      .error (.assertion,
        { main_circuit subs with
            dirty :=
              { bits := [2, env.fresh 1 % 2 ^ 64, env.fresh 2 % 2 ^ 64, env.fresh 3 % 2 ^ 64,
                         env.fresh 4 % 2 ^ 64, env.fresh 5 % 2 ^ 64, env.fresh 6 % 2 ^ 64,
                         env.fresh 7 % 2 ^ 64]
                block_len := 1, block_cap := 8 } }) := by
  unfold circuit_gate_mark_dirty
  simp only [main_circuit, mark_zeroed_zero, bind, Except.bind]
  simp [gate_set_mark, gate_set_grow, shl1, load, store, bind, Except.bind, pure, Except.pure]
  unfold circuit_update
  simp [gate_set_empty, gate_set_pop, load, store, ctz32, shl1, notMask, bind, Except.bind,
    pure, Except.pure, List.range, List.range.loop, circuit_update_gate]
  rfl

/-- C11 (fails on the code). The claim: after gate_set_unmark(set, id) the id is not
marked. After gate_set_mark(7) on a zeroed set, gate_set_unmark(7) returns and id
7 is still marked, whatever the fresh storage holds: the mask ~(1 << id & 0x3f)
is ~((1 << 7) & 0x3f) = ~0, which clears no bit. -/
theorem unmark_leaves_id_marked (fresh : Nat → Nat) :
    Except.map (fun set => set.marked 7)
        (gate_set_mark fresh GateSet.zeroed 7 >>= fun set => gate_set_unmark set 7) =
      .ok true := by
  simp only [mark_zeroed_seven, bind, Except.bind]
  simp [gate_set_unmark, shl1, load, store, notMask, unmark_scan, bind, Except.bind, pure,
    Except.pure]
  split_ifs <;> simp [Except.map, GateSet.marked] <;> decide

/-- C12, as stated, fails at 2^30 ports. The circuit with 2^30 ports, all
allocated, is reached from circuit_new by 2^30 calls of circuit_port_new, and the
next call returns no index: the storage has to grow and cap_ports * 2 = 2^31
overflows int (line 174), which is undefined behaviour. -/
theorem circuit_port_new_overflows_at_2_30 :
    Reachable (zero_ports (2 ^ 27) (2 ^ 30)) ∧
    (zero_ports (2 ^ 27) (2 ^ 30)).len_ports = 2 ^ 30 ∧
    circuit_port_new Junk.zero (zero_ports (2 ^ 27) (2 ^ 30)) =
      .error (.undefined, zero_ports (2 ^ 27) (2 ^ 30)) :=
  ⟨reachable_zero_ports_full, rfl, zero_ports_overflow⟩

/-- C12, amended by the bound. For every circuit whose port array is well-formed,
as it is in every circuit reached from circuit_new by calls of the interface
(reachable_inv), and which has fewer than 2^30 ports allocated: circuit_port_new
returns the number of ports allocated before the call (len_ports),
circuit_port_get of the port returned is 0, and circuit_port_get of every port
allocated before returns the value it returned before, also when the call grows
the port storage. -/
theorem circuit_port_new_fresh_port_below (junk : Junk) (c : Circuit) (hp : c.ports_ok)
    (hb : c.len_ports < 2 ^ 30) :
    ∃ c1, circuit_port_new junk c = .ok (c.len_ports, c1) ∧
      c1.len_ports = c.len_ports + 1 ∧
      circuit_port_get c1 c.len_ports = .ok 0 ∧
      ∀ q, 0 ≤ q → q < c.len_ports → ∃ x, circuit_port_get c q = .ok x ∧
        circuit_port_get c1 q = .ok x := by
  have hno : ¬ ((c.len_ports ≥ c.cap_ports ∧ int_overflow (c.cap_ports * 2) = true) ∨
      int_overflow (c.len_ports + 1) = true) := by
    obtain ⟨h0, h1, _, _⟩ := hp
    simp only [int_overflow_iff]
    omega
  obtain ⟨c1, hnew, hlen, hok1, hbits, _⟩ := circuit_port_new_spec junk c hp hno
  obtain ⟨h0, h1, h2, h3⟩ := hp
  obtain ⟨_, k1, k2, _⟩ := hok1
  refine ⟨c1, hnew, hlen, ?_, ?_⟩
  · rw [circuit_port_get_allocated c1 c.len_ports k1 k2 h0 (by omega), hbits]
    have := h3 c.len_ports.toNat (by omega)
    rw [this]
    rfl
  · intro q hq0 hq
    refine ⟨_, circuit_port_get_allocated c q h1 h2 hq0 hq, ?_⟩
    rw [circuit_port_get_allocated c1 q k1 k2 hq0 (by omega), hbits]

/-- Witness of C12 on the circuit ports_full, a wired circuit whose port byte is
full (8 ports holding the byte 165), so that the call grows the storage. -/
theorem circuit_port_new_fresh_port_below_witness :
    ports_full.ports_ok ∧ ports_full.len_ports < 2 ^ 30 ∧
    ∃ c1, circuit_port_new Junk.zero ports_full = .ok (ports_full.len_ports, c1) ∧
      c1.len_ports = ports_full.len_ports + 1 ∧
      circuit_port_get c1 ports_full.len_ports = .ok 0 ∧
      ∀ q, 0 ≤ q → q < ports_full.len_ports → ∃ x, circuit_port_get ports_full q = .ok x ∧
        circuit_port_get c1 q = .ok x :=
  ⟨ports_full_ok, by decide,
    circuit_port_new_fresh_port_below Junk.zero ports_full ports_full_ok (by decide)⟩

/-- C13 (fails on the code). The claim: circuit_port_get and circuit_port_set fail
with an assertion for every index outside 0 .. len_ports - 1, negative indices
included. On a circuit with one port the index -1 passes assert(id < len_ports),
and both functions then access ports[-1 >> 3] = ports[-1], in front of the array:
undefined behaviour, not an assertion failure. -/
theorem port_access_negative_index_undefined :
    circuit_port_get single_input (-1) = .error (.undefined, single_input) ∧
    (∀ env v, circuit_port_set env single_input (-1) v = .error (.undefined, single_input)) := by
  refine ⟨by simp [circuit_port_get, single_input, load], ?_⟩
  intro env v
  simp [circuit_port_set, single_input, shl1, load, bind, Except.bind]

/-- C14 (fails on the code). The claim: circuit_gate_subscribe(c, g, p) accesses an
in-range, zero-initialised or previously built subscriber set for every allocated
port p. After circuit_new and two circuit_port_new, the array subs has
cap_ports >> 3 = 1 record, which is indeterminate (memset zeroed one byte of it),
and circuit_gate_subscribe(c, g, 1) accesses subs[1] behind the array: undefined
behaviour, for every g and whatever the storage holds. -/
theorem subscribe_second_port_out_of_bounds (junk junk1 : Junk) (fresh : Nat → Nat)
    (g : Int) :
    ∃ c1 c2, circuit_port_new junk circuit_new = .ok (0, c1) ∧
      circuit_port_new junk1 c1 = .ok (1, c2) ∧
      c2.len_ports = 2 ∧ c2.subs = [junk.subs 0] ∧
      circuit_gate_subscribe fresh c2 g 1 = .error (.undefined, c2) := by
  refine ⟨_, _, port_new_first junk, port_new_second junk junk1, rfl, rfl, ?_⟩
  simp [circuit_gate_subscribe, load, circuit_new, bind, Except.bind]

/-- C15. For every circuit c1 that a call of circuit_update has just returned, and
more generally for every circuit whose dirty set gate_set_empty finds empty, a
call of circuit_update returns c1 itself: port values, subscriber sets, dirty set
and the record of callback invocations are the same. It does so for every bound
on the rounds of the loop, also the bound 0, under which no round (no pop, no
gate evaluation, no callback) can have run. -/
theorem circuit_update_quiescent_noop (env : Env) (m : Nat) (c1 : Circuit)
    (h : (∃ env0 n c0, circuit_update env0 n c0 = .ok c1) ∨ gate_set_empty c1.dirty = true) :
    circuit_update env m c1 = .ok c1 ∧ circuit_update env 0 c1 = .ok c1 := by
  have he : gate_set_empty c1.dirty = true := by
    rcases h with ⟨env0, n, c0, h⟩ | h
    · exact circuit_update_ok_empty env0 n c0 c1 h
    · exact h
  constructor
  · cases m <;> simp [circuit_update, he]
  · simp [circuit_update, he]

/-- Witness of C15 on the circuit nor_settled, the state in which the evaluation of
a Nor gate has left 1 on its output port and no gate is dirty: a call with up to
5 rounds returns it unchanged. -/
theorem circuit_update_quiescent_noop_witness :
    circuit_update_gate ⟨fun _ => 0, stale_iter 0, 1⟩ (nor_unwatched false false) 0 =
      .ok nor_settled ∧
    ((∃ env0 n c0, circuit_update env0 n c0 = .ok nor_settled) ∨
      gate_set_empty nor_settled.dirty = true) ∧
    circuit_update ⟨fun _ => 1, stale_iter 7, 2⟩ 5 nor_settled = .ok nor_settled ∧
    circuit_update ⟨fun _ => 1, stale_iter 7, 2⟩ 0 nor_settled = .ok nor_settled :=
  ⟨nor_settled_reached _, Or.inr rfl,
    circuit_update_quiescent_noop ⟨fun _ => 1, stale_iter 7, 2⟩ 5 nor_settled (Or.inr rfl)⟩

/-- C16 (fails on the code). The claim: circuit_update_gate fails with an assertion
for every gate index outside 0 .. len_gates - 1, negative indices included, and
then performs no port write. On the circuit driven_port, whose port p0 holds 1,
the index -2 passes assert(gate < len_gates) and line 212 copies the bytes in
front of the gate array as the record of the gate. When these bytes read as kind
0 (GateKind_In), output 0 and literal 0, whatever the other fields read, the
switch runs circuit_port_set(c, 0, 0): the call returns, no assertion has failed,
and p0 has gone from 1 to 0. -/
theorem update_gate_negative_index_writes_port (env : Env) (g : Gate) :
    circuit_port_get driven_port 0 = .ok 1 ∧
    circuit_update_gate_front (fun _ => { g with kind := 0, output := 0, value := 0 }) env
        driven_port (-2) = .ok { driven_port with ports := [0] } ∧
    circuit_port_get { driven_port with ports := [0] } 0 = .ok 0 := by
  refine ⟨rfl, ?_, rfl⟩
  simp [circuit_update_gate_front, driven_port, gate_switch, GateKind.ofTag, circuit_port_set,
    shl1, load, store, notMask, bind, Except.bind, circuit_port_notify, FOR_EACH_GATE,
    gate_set_iter_init, GateSet.zeroed]
  cases env.rounds <;> simp [for_each_loop]

/-- C17. The function gate_set_mark is idempotent: for every set whose capacity is
the number of blocks of its storage and every id of type int that is not
negative, gate_set_mark(set, id) returns a set s1 and gate_set_mark(s1, id)
returns s1 again (bits, block_len and block_cap), whatever the fresh storage of
either call holds. This is so for every value wide that the machine delivers for
the shift 1 << (id & 0x3f) where its count is 31 or more; for a count below 31
the calls are those of gate_set_mark itself. The set returned is again one whose
capacity is the number of its blocks, and the int arithmetic of the growth stays
in the range of int. -/
theorem gate_set_mark_machine_idempotent (wide : Int → Nat) (fresh fresh1 : Nat → Nat)
    (set : GateSet) (id : Int) (h0 : 0 ≤ id) (h1 : id ≤ 2147483647)
    (hw : set.block_cap = (set.bits.length : Int)) :
    ∃ s1, gate_set_mark_with (shl1_machine wide) fresh set id = .ok s1 ∧
      gate_set_mark_with (shl1_machine wide) fresh1 s1 id = .ok s1 ∧
      s1.block_cap = (s1.bits.length : Int) ∧
      (id / 64 ≥ set.block_cap →
        int_overflow (set.block_cap * 2) = false ∧ int_overflow (id / 64 + 1) = false) ∧
      (id % 64 < 31 → gate_set_mark fresh set id = .ok s1) := by
  have hi : 0 ≤ id / 64 := by omega
  obtain ⟨m, hm⟩ : ∃ m, shl1_machine wide (id % 64) = .ok m := by
    unfold shl1_machine
    split_ifs
    · exact ⟨_, rfl⟩
    · exact ⟨_, rfl⟩
  obtain ⟨s0, b, hg, hb, hlen, hcap, hmark⟩ :=
    gate_set_mark_with_returns (shl1_machine wide) fresh set id m h0 hw hm
  obtain ⟨_, hg2, hw0, _⟩ := gate_set_grow_returns fresh set (id / 64) hi hw
  rw [hg] at hg2
  cases hg2
  refine ⟨_, hmark, gate_set_mark_with_again (shl1_machine wide) fresh1 s0 id m b hi hlen hcap hm,
    ?_, ?_, ?_⟩
  · simp only [List.length_set]
    exact hw0
  · intro hge
    have e1 : ∀ x : Int, int_overflow x = false ↔ ¬ (x < -2147483648 ∨ 2147483647 < x) := by
      intro x
      simp [int_overflow]
    rw [e1, e1]
    omega
  · intro hlow
    rw [gate_set_mark_eq_with]
    have hm1 : shl1 (id % 64) = .ok m := by
      rw [← shl1_machine_low wide (id % 64) (by omega) hlow]
      exact hm
    obtain ⟨s0', b', hg', hb', _, _, hmark'⟩ :=
      gate_set_mark_with_returns shl1 fresh set id m h0 hw hm1
    rw [hg] at hg'
    cases hg'
    rw [hb] at hb'
    cases hb'
    exact hmark'

/-- Witness of C17 on the id 33 and a zeroed set, with the shift of x86-64, which
delivers 1 << (33 mod 32) = 2 for the count 33. -/
theorem gate_set_mark_machine_idempotent_witness :
    (0 : Int) ≤ 33 ∧ (33 : Int) ≤ 2147483647 ∧
    GateSet.zeroed.block_cap = (GateSet.zeroed.bits.length : Int) ∧
    ∃ s1, gate_set_mark_with (shl1_machine (fun _ => 2)) (fun _ => 0) GateSet.zeroed 33 = .ok s1 ∧
      gate_set_mark_with (shl1_machine (fun _ => 2)) (fun _ => 5) s1 33 = .ok s1 ∧
      s1.block_cap = (s1.bits.length : Int) ∧
      ((33 : Int) / 64 ≥ GateSet.zeroed.block_cap →
        int_overflow (GateSet.zeroed.block_cap * 2) = false ∧
          int_overflow ((33 : Int) / 64 + 1) = false) ∧
      ((33 : Int) % 64 < 31 → gate_set_mark (fun _ => 0) GateSet.zeroed 33 = .ok s1) :=
  ⟨by decide, by decide, rfl,
    gate_set_mark_machine_idempotent (fun _ => 2) (fun _ => 0) (fun _ => 5) GateSet.zeroed 33
      (by decide) (by decide) rfl⟩

/-- C18, as stated, fails at 2^30 gates. The circuit with 2^30 gates, all
allocated, is reached from circuit_new by 2^30 calls of circuit_gate_new, and the
next call returns no id: the storage has to grow and cap_gates * 2 = 2^31
overflows int (line 257), which is undefined behaviour. -/
theorem circuit_gate_new_overflows_at_2_30 :
    Reachable (zero_gates (2 ^ 30) (2 ^ 30)) ∧
    (zero_gates (2 ^ 30) (2 ^ 30)).len_gates = 2 ^ 30 ∧
    circuit_gate_new Junk.zero (zero_gates (2 ^ 30) (2 ^ 30)) .In =
      .error (.undefined, zero_gates (2 ^ 30) (2 ^ 30)) :=
  ⟨reachable_zero_gates_full, rfl, zero_gates_overflow .In⟩

/-- C18, amended by the bound. For every circuit whose gate array is well-formed,
as it is in every circuit reached from circuit_new by calls of the interface
(reachable_inv), and which has fewer than 2^30 gates allocated, and for every
kind k: circuit_gate_new returns the number of gates allocated before the call
(len_gates), the new record has kind k, and the record of every gate allocated
before (kind, port references and payload) is the same as before, also when the
call grows the gate storage. -/
theorem circuit_gate_new_keeps_gates_below (junk : Junk) (c : Circuit) (kind : GateKind)
    (hg : c.gates_ok) (hb : c.len_gates < 2 ^ 30) :
    ∃ c1, circuit_gate_new junk c kind = .ok (c.len_gates, c1) ∧
      c1.len_gates = c.len_gates + 1 ∧
      (∃ g, load c1.gates c.len_gates = .ok g ∧ GateKind.ofTag g.kind = some kind) ∧
      ∀ i, 0 ≤ i → i < c.len_gates → ∃ g, load c.gates i = .ok g ∧ load c1.gates i = .ok g := by
  have hno : ¬ ((c.len_gates ≥ c.cap_gates ∧ int_overflow (c.cap_gates * 2) = true) ∨
      int_overflow (c.len_gates + 1) = true) := by
    obtain ⟨h0, h1, _⟩ := hg
    simp only [int_overflow_iff]
    omega
  obtain ⟨c1, hnew, hlen, hok1, ⟨g, hgg, hk⟩, hold, _⟩ := circuit_gate_new_spec junk c kind hg hno
  obtain ⟨h0, h1, h2⟩ := hg
  refine ⟨c1, hnew, hlen, ⟨g, ?_, ?_⟩, ?_⟩
  · unfold load
    rw [if_neg (by omega), hgg]
  · rw [hk]
    cases kind <;> rfl
  · intro i hi0 hi
    have hi2 : i.toNat < c.gates.length := by omega
    refine ⟨c.gates[i.toNat], ?_, ?_⟩
    · unfold load
      rw [if_neg (by omega), List.getElem?_eq_getElem hi2]
    · unfold load
      rw [if_neg (by omega), hold i.toNat (by omega), List.getElem?_eq_getElem hi2]

/-- Witness of C18 on the circuit of main with its 8 gate records all allocated,
so that the call grows the storage. -/
theorem circuit_gate_new_keeps_gates_below_witness :
    (main_full [GateSet.zeroed]).gates_ok ∧ (main_full [GateSet.zeroed]).len_gates < 2 ^ 30 ∧
    ∃ c1, circuit_gate_new Junk.zero (main_full [GateSet.zeroed]) .Nor =
        .ok ((main_full [GateSet.zeroed]).len_gates, c1) ∧
      c1.len_gates = (main_full [GateSet.zeroed]).len_gates + 1 ∧
      (∃ g, load c1.gates (main_full [GateSet.zeroed]).len_gates = .ok g ∧
        GateKind.ofTag g.kind = some .Nor) ∧
      ∀ i, 0 ≤ i → i < (main_full [GateSet.zeroed]).len_gates →
        ∃ g, load (main_full [GateSet.zeroed]).gates i = .ok g ∧ load c1.gates i = .ok g :=
  ⟨main_full_ok _, by decide,
    circuit_gate_new_keeps_gates_below Junk.zero (main_full [GateSet.zeroed]) .Nor
      (main_full_ok _) (by decide)⟩

/-- C19 (fails on the code). The claim: every mutation keeps the invariant of
struct GateSet. After gate_set_mark(0); gate_set_pop on a zeroed set, block_len is
1 and bits[0] is 0, so bits[block_len-1] != 0 is broken, whatever the fresh
storage holds. -/
theorem pop_breaks_gate_set_invariant (fresh : Nat → Nat) :
    ∃ set, run_muts fresh [.mark 0, .pop] GateSet.zeroed = .ok set ∧
      set.block_len = 1 ∧ load set.bits (set.block_len - 1) = .ok 0 ∧ set.inv = false := by
  refine ⟨{ bits := [0, fresh 1 % 2 ^ 64, fresh 2 % 2 ^ 64, fresh 3 % 2 ^ 64, fresh 4 % 2 ^ 64,
                    fresh 5 % 2 ^ 64, fresh 6 % 2 ^ 64, fresh 7 % 2 ^ 64]
            block_len := 1, block_cap := 8 }, ?_, rfl, rfl, ?_⟩
  · simp only [run_muts, Nat.cast_zero, mark_zeroed_zero, pop_first]
  · simp [GateSet.inv]

/-- C20 (fails on the code). The claim: when only allocated gate ids are marked
dirty, every id that circuit_update pops is an allocated gate id and the assert
gate < len_gates never fails, as for the circuit of main. On the circuit of main,
with gates 0 and 1 marked dirty, gate_set_pop returns 127 and the assert
127 < 6 fails, before any gate is evaluated, whatever the subscriber sets and
the fresh storage hold. -/
theorem main_drain_fails_assert (env : Env) (subs : List GateSet) (n : Nat) :
    ∃ c1, (circuit_gate_mark_dirty env (main_circuit subs) 0 >>= fun c0 =>
        circuit_gate_mark_dirty env c0 1 >>= circuit_update env (n + 1)) =
        .error (.assertion, c1) ∧
      c1.len_gates = 6 ∧ c1.calls = [] :=
  ⟨_, main_update env subs n, rfl, rfl⟩

end CGates
